import Mathlib

/-!
Verification development for the cis-publishers profile core
(`src/cis_publishers/common/profile.py`).

The development shallowly embeds the profile data model and its operations:

* `Val` is the type of Python values that can sit in the `value`/`values`
  slot of a signed attribute, or as a leaf of the flat view: `None`,
  strings, booleans, integers, lists of strings, and "set-dicts"
  (Python dicts mapping every member string to `None`, the wire encoding
  of a semantic set).  `pyEq` is Python's `==` on this fragment,
  in particular dict comparison is order-insensitive.
* `SignableAttribute.setValue` transliterates
  `SignableAttribute.__setattr__` (profile.py lines 283-362) for the
  `value`/`values` keys: list and numeric normalization, the no-op check,
  timestamp and display-level updates, signature recomputation, and the
  notification message.  The process-wide `DISPLAY_LEVEL` global and the
  ambient environment (clock, signing key, publisher name) are threaded
  explicitly through `Ctx`.
* `RT`/`RTList` embed the runtime tree shapes `Profile._walk` dispatches
  on: plain values, wire dicts carrying `value`/`values`
  (`RT.wireAttr`), plain nested dicts (`RT.pdict`), `SignableAttribute`
  instances (`RT.sattr`) and `ProfileDict` instances (`RT.profDict`).
  `walkList`/`walkEntry` transliterate `Profile._walk`, `profSet`
  transliterates `ProfileDict.__setitem__`.
* `Profile.init`, `Profile.sign`, `Profile.publish`, `Profile.setItem`
  and `Profile.is_empty` transliterate the corresponding `Profile`
  methods.

Conventions: Python exceptions become `Except Err`; raising discards the
in-place mutations performed before the raise, which is faithful to the
callers (an exception aborts the whole profile's processing).  The model
draws its boundary at dicts whose runtime shape the schema never
produces (for instance a member dict of a semantic set containing a
member literally called "value"); those paths return `Err.unmodeled`.
-/

/-- A Python value that can appear in the `value`/`values` slot of a
signed attribute or as a leaf of the flat view.  `setDict ks` is the
Python dict mapping each member of `ks` to `None` (the wire encoding of
a set of strings). -/
inductive Val where
  | none : Val
  | str (s : String) : Val
  | bool (b : Bool) : Val
  | int (n : Int) : Val
  | list (xs : List String) : Val
  | setDict (ks : List String) : Val
deriving DecidableEq

/-- Python truth of `v == w` on the embedded fragment: dicts compare as
finite maps (order-insensitive; all our dict values are `None`, so this
is key-set equality), lists compare pointwise, and `True == 1`. -/
def pyEq : Val → Val → Bool
  | Val.none, Val.none => true
  | Val.str a, Val.str b => a == b
  | Val.bool a, Val.bool b => a == b
  | Val.int a, Val.int b => a == b
  | Val.bool a, Val.int b => (if a then (1 : Int) else 0) == b
  | Val.int a, Val.bool b => a == (if b then (1 : Int) else 0)
  | Val.list a, Val.list b => a == b
  | Val.setDict a, Val.setDict b =>
      a.all (fun x => b.contains x) && b.all (fun x => a.contains x)
  | _, _ => false

/-- Lexicographic code-point comparison of char lists, Python's string
order. -/
def charListLe : List Char → List Char → Bool
  | [], _ => true
  | _ :: _, [] => false
  | c :: cs, d :: ds =>
      if c.val < d.val then true
      else if d.val < c.val then false
      else charListLe cs ds

/-- Python's `x <= y` on strings (lexicographic by code point). -/
def strLe (x y : String) : Bool := charListLe x.data y.data

/-- Python's `x < y` on strings. -/
def strLt (x y : String) : Bool := strLe x y && !(x == y)

def listPre : List Char → List Char → Bool
  | [], _ => true
  | _ :: _, [] => false
  | c :: cs, d :: ds => c == d && listPre cs ds

/-- Python's `s.startswith(pre)`. -/
def strStartsWith (s pre : String) : Bool := listPre pre.data s.data

/-- Insert a string into a (sorted) list of strings. -/
def insertStr (x : String) : List String → List String
  | [] => [x]
  | y :: ys => if strLe x y then x :: y :: ys else y :: insertStr x ys

/-- Insertion sort on strings; Python's `sorted` on strings is the same
lexicographic code-point order. -/
def sortStr : List String → List String
  | [] => []
  | x :: xs => insertStr x (sortStr xs)

/-- Remove duplicates keeping first occurrences (what a Python dict
comprehension or `set(...)` does to repeated members). -/
def dedupGo (seen : List String) : List String → List String
  | [] => []
  | x :: xs => if seen.contains x then dedupGo seen xs
               else x :: dedupGo (x :: seen) xs

def dedupL (xs : List String) : List String := dedupGo [] xs

/-- Python's `", ".join(...)`. -/
def commaJoin : List String → String
  | [] => ""
  | [x] => x
  | x :: y :: ys => x ++ ", " ++ commaJoin (y :: ys)

/-- A single quote character, for rendering Python `repr` of strings. -/
def squote : String := String.singleton (Char.ofNat 39)

def pyRepr (s : String) : String := squote ++ s ++ squote

/-- Python `str(...)` of an embedded value, as used by the f-string
`f"{initial_value} --> {v}"` in the notification message. -/
def pyStr : Val → String
  | Val.none => "None"
  | Val.str s => s
  | Val.bool b => if b then "True" else "False"
  | Val.int n => toString n
  | Val.list xs => "[" ++ commaJoin (xs.map pyRepr) ++ "]"
  | Val.setDict ks =>
      "\x7b" ++ commaJoin (ks.map (fun k => pyRepr k ++ ": None")) ++ "\x7d"

/-- The normalization at the top of `SignableAttribute.__setattr__`
(lines 284-290): a non-empty list becomes the dict
`{v: None for v in sorted(v)}` and an `int`/`float` becomes its string
form (`bool` is deliberately excluded in the source:
`type(v) in (int, float)`). -/
def pyNorm (v : Val) : Val :=
  let v1 := match v with
    | Val.list (x :: xs) => Val.setDict (dedupL (sortStr (x :: xs)))
    | w => w
  match v1 with
  | Val.int n => Val.str (toString n)
  | w => w

/-- Signing metadata of an attribute (`self.data["metadata"]`): only the
fields the publisher touches are modelled. -/
structure Metadata where
  created : String
  lastModified : String
  display : Option String
deriving DecidableEq

/-- The signature block of an attribute.  `wire` is an opaque block read
from the provider; `computed` abstracts
`jws.sign(self.data, PUBLISHER_SIGNING_KEY)` as a deterministic function
of the publisher name and the signed payload (the attribute's key kind,
value and metadata at signing time). -/
inductive SigVal where
  | wire (s : String) : SigVal
  | computed (publisher : String) (usesValues : Bool) (v : Val)
      (md : Metadata) : SigVal
deriving DecidableEq

/-- The underlying dict of a `SignableAttribute`: whether its value key
is `"values"` rather than `"value"`, the stored value, and the optional
`metadata`/`signature` entries (`Option.none` means the key is absent
from the dict). -/
structure AttrData where
  usesValues : Bool
  val : Val
  metadata : Option Metadata
  signature : Option SigVal
deriving DecidableEq

/-- Errors: each constructor is one `raise` site of the source (plus
`unmodeled` for runtime shapes outside the embedded fragment). -/
inductive Err where
  | schemaViolation (k : String) : Err
  | overwriteProfileDict : Err
  | displayLevelUnset : Err
  | signingKeyMissing : Err
  | inactiveProfile : Err
  | profileNotFound : Err
  | keyError (k : String) : Err
  | unmodeled (why : String) : Err
deriving DecidableEq

/-- The ambient process state read by a leaf write: the formatted
current time (`time.strftime(..., time.gmtime())`), the process-wide
`DISPLAY_LEVEL` global, whether `PUBLISHER_SIGNING_KEY` is loaded, and
`environ["PUBLISHER_NAME"]`. -/
structure Ctx where
  now : String
  displayLevel : Option String
  hasSigningKey : Bool
  publisherName : String
deriving DecidableEq

/-- The no-op test of lines 295-298: the (already normalized) new value
equals the stored one, or the stored value is `None` and the new one is
`None`, `[]` or `{}`. -/
def isNoop (a : AttrData) (v : Val) : Bool :=
  pyEq a.val v ||
    ((match a.val with | Val.none => true | _ => false) &&
     (pyEq v Val.none || pyEq v (Val.list []) || pyEq v (Val.setDict [])))

/-- The list-diff notification message of lines 343-351. -/
def listDiffMsg (iks ks : List String) : String :=
  let adding := sortStr (dedupL (ks.filter (fun x => !iks.contains x)))
  let deleting := sortStr (dedupL (iks.filter (fun x => !ks.contains x)))
  let aStr := commaJoin (adding.map (fun i => "+" ++ i))
  let dStr := commaJoin (deleting.map (fun i => "-" ++ i))
  if aStr != "" && dStr != "" then aStr ++ ", " ++ dStr else aStr ++ dStr

/-- The notification message of lines 341-357, keyed on the shapes of
the initial and new value.  `_is_list(x)` is
`isinstance(x, dict) and not any(x.values())`, which on the embedded
fragment holds exactly for `setDict`. -/
def notifyMsg (initial v : Val) : String :=
  match initial, v with
  | Val.setDict iks, Val.setDict ks => listDiffMsg iks ks
  | Val.none, Val.setDict ks =>
      commaJoin ((sortStr ks).map (fun i => "+" ++ i))
  | _, _ => pyStr initial ++ " --> " ++ pyStr v

/-- Lines 310-313: set `created` to the current time only while it is
still the `1970` sentinel (`self.data["metadata"]["created"][0:4]`),
and refresh `last_modified` unconditionally. -/
def stampTimes (c : Ctx) (md0 : Metadata) : Metadata :=
  if md0.created.take 4 == "1970" then
    { md0 with created := c.now, lastModified := c.now }
  else { md0 with lastModified := c.now }

/-- Lines 315-317: when the leaf's display level is unset, fill it from
the process-wide `DISPLAY_LEVEL` global. -/
def resolveDisplay (c : Ctx) (md : Metadata) : Metadata :=
  if md.display.isNone then { md with display := c.displayLevel } else md

/-- The attribute as rewritten by a successful signed write: normalized
value, stamped and display-resolved metadata, and a freshly computed
signature replacing the old block. -/
def signedWrite (c : Ctx) (a : AttrData) (md0 : Metadata) (v0 : Val) : AttrData :=
  { a with
    val := pyNorm v0
    metadata := Option.some (resolveDisplay c (stampTimes c md0))
    signature := Option.some
      (SigVal.computed c.publisherName a.usesValues (pyNorm v0)
        (resolveDisplay c (stampTimes c md0))) }

/-- `SignableAttribute.__setattr__` for `k` in `("value", "values")`
(lines 283-362): normalization, no-op check, value store, early return
for signature-less attributes, timestamps, display-level resolution,
signature recomputation, and the notification passed up to the parent
profile (returned here as a singleton list).  The timestamp update of
lines 310-313 happens before the display check of lines 315-319, but a
raise propagates out of the whole profile computation, so sequencing it
after (inside `signedWrite`) is observationally the same. -/
def setValue (a : AttrData) (nm : String) (c : Ctx) (v0 : Val) :
    Except Err (AttrData × List (String × String)) :=
  if isNoop a (pyNorm v0) then Except.ok (a, [])
  else if a.signature.isNone then Except.ok ({ a with val := pyNorm v0 }, [])
  else
    match a.metadata with
    | Option.none => Except.error (Err.keyError "metadata")
    | Option.some md0 =>
      match md0.display, c.displayLevel with
      | Option.none, Option.none => Except.error Err.displayLevelUnset
      | _, _ =>
        if !c.hasSigningKey then Except.error Err.signingKeyMissing
        else
          Except.ok (signedWrite c a md0 v0,
                     [(nm, notifyMsg a.val (pyNorm v0))])

example :
    setValue
      { usesValues := false, val := Val.str "old",
        metadata := Option.some
          { created := "1970-01-01T00:00:00.000Z",
            lastModified := "1970-01-01T00:00:00.000Z",
            display := Option.none },
        signature := Option.some (SigVal.wire "") }
      "last_name"
      { now := "2026-10-12T00:00:00.000Z", displayLevel := Option.some "staff",
        hasSigningKey := true, publisherName := "ldap" }
      (Val.str "new") =
    Except.ok
      ({ usesValues := false, val := Val.str "new",
         metadata := Option.some
           { created := "2026-10-12T00:00:00.000Z",
             lastModified := "2026-10-12T00:00:00.000Z",
             display := Option.some "staff" },
         signature := Option.some (SigVal.computed "ldap" false (Val.str "new")
           { created := "2026-10-12T00:00:00.000Z",
             lastModified := "2026-10-12T00:00:00.000Z",
             display := Option.some "staff" }) },
       [("last_name", "old --> new")]) := by
  rfl

mutual
/-- A runtime node of one of the trees `Profile._walk` dispatches on:
a plain value (strings included), a plain wire dict carrying
`value`/`values`, a plain nested dict, a `SignableAttribute` instance
(with its `__name`), or a `ProfileDict` instance. -/
inductive RT where
  | val (v : Val) : RT
  | wireAttr (a : AttrData) : RT
  | pdict (es : RTList) : RT
  | sattr (a : AttrData) (nm : String) : RT
  | profDict (es : RTList) : RT

/-- The entries of a dict-like node, in Python insertion order. -/
inductive RTList where
  | nil : RTList
  | cons (k : String) (v : RT) (rest : RTList) : RTList
end

/-- Python `d.get(k)` / `k in d` resolution on entries. -/
def RTList.lookup : RTList → String → Option RT
  | RTList.nil, _ => Option.none
  | RTList.cons k v rest, k0 =>
      if k == k0 then Option.some v else RTList.lookup rest k0

/-- Python `d[k] = v`: replace in place (keeping insertion order) or
append. -/
def RTList.set : RTList → String → RT → RTList
  | RTList.nil, k0, v0 => RTList.cons k0 v0 RTList.nil
  | RTList.cons k v rest, k0, v0 =>
      if k == k0 then RTList.cons k v0 rest
      else RTList.cons k v (RTList.set rest k0 v0)

def RTList.keys : RTList → List String
  | RTList.nil => []
  | RTList.cons k _ rest => k :: RTList.keys rest

def RTList.hasKey (es : RTList) (k : String) : Bool :=
  (es.lookup k).isSome

/-- Python `d.get(k) is None`: the key is absent or its value is
`None`. -/
def RTList.getIsNone (es : RTList) (k : String) : Bool :=
  match es.lookup k with
  | Option.none => true
  | Option.some (RT.val Val.none) => true
  | _ => false

/-- `ProfileDict.__setitem__` (lines 50-64): an existing
`SignableAttribute` receives the value through `.value = v`; an
existing `ProfileDict` cannot be overwritten with a single value;
any other existing entry is silently left unchanged (the `else` of the
source attaches to the outer `if`); a missing key is plainly
inserted. -/
def profSet (c : Ctx) (out : RTList) (k : String) (v : RT) :
    Except Err (RTList × List (String × String)) :=
  match out.lookup k with
  | Option.some (RT.sattr a n) =>
      match v with
      | RT.val u => do
          let (a', ns) ← setValue a n c u
          Except.ok (out.set k (RT.sattr a' n), ns)
      | _ => Except.error (Err.unmodeled "non-value assigned onto attribute")
  | Option.some (RT.profDict _) => Except.error Err.overwriteProfileDict
  | Option.some _ => Except.ok (out, [])
  | Option.none => Except.ok (out.set k v, [])

/-- `output_node[k] = v`, which routes through
`ProfileDict.__setitem__` when the output node is a `ProfileDict` and
is a plain dict store otherwise. -/
def outSet (c : Ctx) (isProf : Bool) (out : RTList) (k : String) (v : RT) :
    Except Err (RTList × List (String × String)) :=
  if isProf then profSet c out k v else Except.ok (out.set k v, [])

/-- `Profile._walk` iterating over the member dict of a semantic set
(every value is `None`): case 1 never fires (`None` is not a string),
case 2 fires when the output holds an attribute at the member key, and
all remaining cases fail, reaching the `ValueError` of line 172. -/
def walkNoneEntries (c : Ctx) : List String → RTList →
    Except Err (RTList × List (String × String))
  | [], out => Except.ok (out, [])
  | m :: ms, out =>
      match out.lookup m with
      | Option.some (RT.sattr a n) =>
          if pyEq a.val Val.none then walkNoneEntries c ms out
          else do
            let (a', ns) ← setValue a n c Val.none
            let (out2, ns2) ← walkNoneEntries c ms (out.set m (RT.sattr a' n))
            Except.ok (out2, ns ++ ns2)
      | _ => Except.error (Err.schemaViolation m)

mutual
/-- The body of `Profile._walk`'s loop for one entry `(k, v)` of the
input node (lines 125-172), with the cases tried in source order:

1. `v` is a string: `output_node[k] = v`.
2. `output_node.get(k)` is a `SignableAttribute`: write `v` into it
   (guarded by `output_node[k].value != v`).
3. `v` is a `SignableAttribute` (it always contains `value` or
   `values`): `output_node[k] = v.value`.
4. `v` is a dict with a `value`/`values` key: bootstrap a
   `SignableAttribute` named `k` around it.
5. `v` is a dict whose `metadata` and `signature` are absent-or-None:
   ensure a `ProfileDict` exists at `k` and recurse into it.
6. `v` is a `ProfileDict`: store a fresh plain dict at `k` and recurse.
7. otherwise: `ValueError` (schema violation). -/
def walkEntry (c : Ctx) (k : String) (v : RT) (isProf : Bool)
    (out : RTList) : Except Err (RTList × List (String × String)) :=
  match v with
  | RT.val (Val.str s) => outSet c isProf out k (RT.val (Val.str s))
  | RT.val u =>
      match out.lookup k with
      | Option.some (RT.sattr a n) =>
          if pyEq a.val u then Except.ok (out, [])
          else do
            let (a', ns) ← setValue a n c u
            Except.ok (out.set k (RT.sattr a' n), ns)
      | _ =>
          match u with
          | Val.setDict ks =>
              if ks.contains "value" || ks.contains "values" then
                Except.error (Err.unmodeled "set-dict carrying a value member")
              else
                let out1 := if (out.lookup k).isNone
                            then out.set k (RT.profDict RTList.nil) else out
                match out1.lookup k with
                | Option.some (RT.profDict fs) => do
                    let (fs', ns) ← walkNoneEntries c ks fs
                    Except.ok (out1.set k (RT.profDict fs'), ns)
                | Option.some (RT.pdict fs) => do
                    let (fs', ns) ← walkNoneEntries c ks fs
                    Except.ok (out1.set k (RT.pdict fs'), ns)
                | _ => Except.error (Err.unmodeled "recursing into a non-dict output")
          | _ => Except.error (Err.schemaViolation k)
  | RT.sattr a _ =>
      match out.lookup k with
      | Option.some (RT.sattr _ _) =>
          Except.error (Err.unmodeled "non-value compared against attribute")
      | _ => outSet c isProf out k (RT.val a.val)
  | RT.wireAttr a =>
      match out.lookup k with
      | Option.some (RT.sattr _ _) =>
          Except.error (Err.unmodeled "non-value compared against attribute")
      | _ => outSet c isProf out k (RT.sattr a k)
  | RT.pdict es =>
      match out.lookup k with
      | Option.some (RT.sattr _ _) =>
          Except.error (Err.unmodeled "non-value compared against attribute")
      | _ =>
          if es.hasKey "value" || es.hasKey "values" then
            Except.error (Err.unmodeled "plain dict carrying a value key")
          else if es.getIsNone "metadata" && es.getIsNone "signature" then
            let out1 := if (out.lookup k).isNone
                        then out.set k (RT.profDict RTList.nil) else out
            match out1.lookup k with
            | Option.some (RT.profDict fs) => do
                let (fs', ns) ← walkList c es true fs
                Except.ok (out1.set k (RT.profDict fs'), ns)
            | Option.some (RT.pdict fs) => do
                let (fs', ns) ← walkList c es false fs
                Except.ok (out1.set k (RT.pdict fs'), ns)
            | _ => Except.error (Err.unmodeled "recursing into a non-dict output")
          else Except.error (Err.schemaViolation k)
  | RT.profDict es =>
      match out.lookup k with
      | Option.some (RT.sattr _ _) =>
          Except.error (Err.unmodeled "non-value compared against attribute")
      | _ => do
          let (out1, ns1) ← outSet c isProf out k (RT.pdict RTList.nil)
          match out1.lookup k with
          | Option.some (RT.pdict fs) => do
              let (fs', ns2) ← walkList c es false fs
              Except.ok (out1.set k (RT.pdict fs'), ns1 ++ ns2)
          | _ => Except.error (Err.unmodeled "recursing into a non-dict output")
termination_by structural v

/-- `Profile._walk(input_node, output_node)`: fold `walkEntry` over the
input's entries in insertion order, accumulating the notifications the
attribute writes pass up to the parent profile. -/
def walkList (c : Ctx) (inp : RTList) (isProf : Bool) (out : RTList) :
    Except Err (RTList × List (String × String)) :=
  match inp with
  | RTList.nil => Except.ok (out, [])
  | RTList.cons k v rest => do
      let (out1, ns1) ← walkEntry c k v isProf out
      let (out2, ns2) ← walkList c rest isProf out1
      Except.ok (out2, ns1 ++ ns2)
termination_by structural inp
end

/-- The `Profile` aggregate: `baseKeys` is `self._base_keys` (the keys
of the retrieved document), `profile` is the raw tree `self._profile`
(a `ProfileDict`), `data` is the flat view `self.data` (a plain dict),
`notifications` is `self.__notifications`, and `attrs` holds the plain
Python instance attributes created by the `setattr` fallback of
`Profile.__setitem__`. -/
structure Profile where
  baseKeys : List String
  profile : RTList
  data : RTList
  notifications : List (String × String)
  attrs : RTList

/-- `Profile.__init__` (lines 77-99) applied to an already-retrieved
document: walk the document into the raw tree, walk the raw tree into
the flat view, then apply the inactive-profile gate (only evaluated
when `allow_inactive` is `False`, and comparing with `is False`), and
start with an empty notification log. -/
def Profile.init (c : Ctx) (retrieved : RTList) (allowInactive : Bool) :
    Except Err Profile := do
  let (prof, _) ← walkList c retrieved true RTList.nil
  let (dat, _) ← walkList c prof false RTList.nil
  if allowInactive then
    Except.ok { baseKeys := retrieved.keys, profile := prof, data := dat,
                notifications := [], attrs := RTList.nil }
  else
    match dat.lookup "active" with
    | Option.none => Except.error (Err.keyError "active")
    | Option.some (RT.val (Val.bool false)) => Except.error Err.inactiveProfile
    | Option.some _ =>
        Except.ok { baseKeys := retrieved.keys, profile := prof, data := dat,
                    notifications := [], attrs := RTList.nil }

/-- `Profile.sign` (lines 243-255): when a display level is supplied it
overwrites the process-wide `DISPLAY_LEVEL` global, then the flat view
is walked back into the raw tree.  `c.displayLevel` is the global
before the call; the updated global is returned alongside the profile
so that the cross-call data flow stays explicit. -/
def Profile.sign (c : Ctx) (p : Profile) (displayLevel : Option String) :
    Except Err (Profile × Option String) :=
  let g := match displayLevel with
    | Option.some dl => Option.some dl
    | Option.none => c.displayLevel
  (walkList { c with displayLevel := g } p.data true p.profile).map
    (fun r => ({ p with
                  profile := r.1
                  notifications := p.notifications ++ r.2 }, g))

/-- The observable outcome of `Profile.publish`: the profile and global
after signing, the notifications in the order they are logged, whether
`change_profile` was invoked, and the method's Python return value. -/
structure PublishResult where
  profile : Profile
  newGlobal : Option String
  logged : List (String × String)
  submitted : Bool
  ret : Option Bool

/-- Ordering of Python tuple comparison on `(attribute, message)`
pairs, as used by `sorted(self.__notifications)`. -/
def pairLe (x y : String × String) : Bool :=
  strLt x.1 y.1 || (x.1 == y.1 && strLe x.2 y.2)

def insertPair (x : String × String) :
    List (String × String) → List (String × String)
  | [] => [x]
  | y :: ys => if pairLe x y then x :: y :: ys else y :: insertPair x ys

/-- A stable sort implementing Python's `sorted` on notification
pairs. -/
def sortPairs : List (String × String) → List (String × String)
  | [] => []
  | x :: xs => insertPair x (sortPairs xs)

/-- `Profile.publish` (lines 228-241): sign, log every notification
sorted, submit the raw document via `change_profile` exactly when the
notification log is non-empty and neither the `dry_run` flag nor the
`DRY_RUN` environment variable is set, and return `None`.  Every branch
formats `self.data["primary_email"]` into a log line, so a profile
without that key raises `KeyError`. -/
def Profile.publish (c : Ctx) (p : Profile) (displayLevel : Option String)
    (dryRun : Bool) (envDryRun : Bool) : Except Err PublishResult := do
  let (p1, g) ← Profile.sign c p displayLevel
  match p1.data.lookup "primary_email" with
  | Option.none => Except.error (Err.keyError "primary_email")
  | Option.some _ =>
    Except.ok { profile := p1, newGlobal := g,
                logged := sortPairs p1.notifications,
                submitted := !p1.notifications.isEmpty && !dryRun && !envDryRun,
                ret := Option.none }

/-- `Profile.__setitem__` (lines 107-112): a key of the retrieved
document goes into the flat view (`self.data` is a plain dict at this
level); any other key falls through to `setattr(self, k, v)`.  The
attribute namespace is not protected, so the names of the `Profile`'s
own attributes collide: `"data"` replaces the whole flat view,
`"_profile"` replaces the whole raw tree, `"_base_keys"` replaces the
key list that routes future assignments, and the mangled
`"_Profile__notifications"` replaces the notification log; every other
name silently creates a plain instance attribute.  Replacements whose
value shape leaves the embedded fragment (a non-dict flat view, a
non-list key list, any notification log, which is a list of pairs and
not representable as a tree value) are marked `Err.unmodeled`. -/
def Profile.setItem (p : Profile) (k : String) (v : RT) : Except Err Profile :=
  if p.baseKeys.contains k then Except.ok { p with data := p.data.set k v }
  else if k == "data" then
    match v with
    | RT.pdict fs => Except.ok { p with data := fs }
    | RT.profDict fs => Except.ok { p with data := fs }
    | _ => Except.error (Err.unmodeled "flat view replaced by a non-dict")
  else if k == "_profile" then
    match v with
    | RT.pdict fs => Except.ok { p with profile := fs }
    | RT.profDict fs => Except.ok { p with profile := fs }
    | _ => Except.error (Err.unmodeled "raw tree replaced by a non-dict")
  else if k == "_base_keys" then
    match v with
    | RT.val (Val.list xs) => Except.ok { p with baseKeys := xs }
    | _ => Except.error (Err.unmodeled "base keys replaced by a non-list")
  else if k == "_Profile__notifications" then
    Except.error (Err.unmodeled "notification log replaced")
  else Except.ok { p with attrs := p.attrs.set k v }

/-- Lookup raising Python's `KeyError` when the key is missing. -/
def getK (es : RTList) (k : String) : Except Err RT :=
  match es.lookup k with
  | Option.some v => Except.ok v
  | Option.none => Except.error (Err.keyError k)

/-- `d[k1][k2]` for a nested flat entry. -/
def getK2 (es : RTList) (k1 k2 : String) : Except Err RT := do
  match ← getK es k1 with
  | RT.pdict fs => getK fs k2
  | RT.profDict fs => getK fs k2
  | _ => Except.error (Err.unmodeled "indexing into a non-dict")

/-- Python truthiness of a flat node, as consumed by `any(...)` in
`Profile.is_empty`. -/
def pyTruthy : RT → Bool
  | RT.val Val.none => false
  | RT.val (Val.str s) => s != ""
  | RT.val (Val.bool b) => b
  | RT.val (Val.int n) => n != 0
  | RT.val (Val.list xs) => !xs.isEmpty
  | RT.val (Val.setDict ks) => !ks.isEmpty
  | RT.pdict RTList.nil => false
  | RT.pdict _ => true
  | RT.profDict RTList.nil => false
  | RT.profDict _ => true
  | RT.sattr _ _ => true
  | RT.wireAttr _ => true

/-- `Profile.is_empty` (lines 174-219): filter `HACK#`-prefixed entries
out of `usernames` (iterating a dict yields its keys), then report
whether none of the enumerated deletable-profile fields is truthy. -/
def Profile.is_empty (p : Profile) : Except Err Bool := do
  let usernames ← match ← getK p.data "usernames" with
    | RT.val Val.none => Except.ok ([] : List String)
    | RT.val (Val.setDict ks) =>
        Except.ok (ks.filter (fun u => !strStartsWith u "HACK#"))
    | RT.val (Val.list xs) =>
        Except.ok (xs.filter (fun u => !strStartsWith u "HACK#"))
    | _ => Except.error (Err.unmodeled "iterating usernames")
  let f01 ← getK2 p.data "access_information" "access_provider"
  let f02 ← getK2 p.data "access_information" "hris"
  let f03 ← getK2 p.data "access_information" "ldap"
  let f04 ← getK2 p.data "access_information" "mozilliansorg"
  let f05 ← getK p.data "alternative_name"
  let f06 ← getK p.data "description"
  let f07 ← getK2 p.data "identities" "bugzilla_mozilla_org_id"
  let f08 ← getK2 p.data "identities" "bugzilla_mozilla_org_primary_email"
  let f09 ← getK2 p.data "identities" "custom_1_primary_email"
  let f10 ← getK2 p.data "identities" "custom_2_primary_email"
  let f11 ← getK2 p.data "identities" "custom_3_primary_email"
  let f12 ← getK2 p.data "identities" "mozilla_ldap_id"
  let f13 ← getK2 p.data "identities" "mozilla_ldap_primary_email"
  let f14 ← getK2 p.data "identities" "mozilla_posix_id"
  let f15 ← getK2 p.data "identities" "mozilliansorg_id"
  let f16 ← getK p.data "languages"
  let f17 ← getK p.data "location"
  let f18 ← getK p.data "pgp_public_keys"
  let f19 ← getK p.data "phone_numbers"
  let f20 ← getK p.data "picture"
  let f21 ← getK p.data "pronouns"
  let f22 ← getK2 p.data "staff_information" "cost_center"
  let f23 ← getK2 p.data "staff_information" "director"
  let f24 ← getK2 p.data "staff_information" "manager"
  let f25 ← getK2 p.data "staff_information" "office_location"
  let f26 ← getK2 p.data "staff_information" "staff"
  let f27 ← getK2 p.data "staff_information" "team"
  let f28 ← getK2 p.data "staff_information" "title"
  let f29 ← getK2 p.data "staff_information" "worker_type"
  let f30 ← getK2 p.data "staff_information" "wpr_desk_number"
  let f31 ← getK p.data "ssh_public_keys"
  let f32 ← getK p.data "tags"
  let f33 ← getK p.data "timezone"
  let f34 ← getK p.data "uris"
  Except.ok (!(pyTruthy f01 || pyTruthy f02 || pyTruthy f03 || pyTruthy f04 ||
    pyTruthy f05 || pyTruthy f06 || pyTruthy f07 || pyTruthy f08 ||
    pyTruthy f09 || pyTruthy f10 || pyTruthy f11 || pyTruthy f12 ||
    pyTruthy f13 || pyTruthy f14 || pyTruthy f15 || pyTruthy f16 ||
    pyTruthy f17 || pyTruthy f18 || pyTruthy f19 || pyTruthy f20 ||
    pyTruthy f21 || pyTruthy f22 || pyTruthy f23 || pyTruthy f24 ||
    pyTruthy f25 || pyTruthy f26 || pyTruthy f27 || pyTruthy f28 ||
    pyTruthy f29 || pyTruthy f30 || pyTruthy f31 || pyTruthy f32 ||
    pyTruthy f33 || pyTruthy f34 || !usernames.isEmpty))

/-- The sentinel "never set" metadata of a skeleton-profile leaf. -/
def mdSentinel : Metadata :=
  { created := "1970-01-01T00:00:00.000Z"
    lastModified := "1970-01-01T00:00:00.000Z"
    display := Option.none }

/-- An ambient context with no display level stored in the global. -/
def c0 : Ctx :=
  { now := "2026-10-12T09:00:00.000Z"
    displayLevel := Option.none
    hasSigningKey := true
    publisherName := "ldap" }

/-- The same context after some call stored `"staff"` in the global. -/
def cStaff : Ctx := { c0 with displayLevel := Option.some "staff" }

/-- A scalar skeleton attribute (string-valued, never signed). -/
def attrScalar (v : Val) : AttrData :=
  { usesValues := false, val := v, metadata := Option.some mdSentinel
    signature := Option.some (SigVal.wire "") }

/-- A set-valued skeleton attribute (`values` key, never signed). -/
def attrSet (v : Val) : AttrData :=
  { usesValues := true, val := v, metadata := Option.some mdSentinel
    signature := Option.some (SigVal.wire "") }

/-- A small retrieved wire document: an unsigned schema string, the
`active` flag, a scalar leaf, a set leaf and one nested container. -/
def wire0 : RTList :=
  RTList.cons "$schema" (RT.val (Val.str "https://example/schema"))
    (RTList.cons "active" (RT.wireAttr (attrScalar (Val.bool true)))
      (RTList.cons "primary_email" (RT.wireAttr (attrScalar (Val.str "jd@example.net")))
        (RTList.cons "pgp_public_keys" (RT.wireAttr (attrSet Val.none))
          (RTList.cons "access_information"
            (RT.pdict (RTList.cons "ldap" (RT.wireAttr (attrSet Val.none)) RTList.nil))
            RTList.nil))))

example :
    (Profile.init c0 wire0 false).map (fun p => p.data.lookup "primary_email") =
    Except.ok (Option.some (RT.val (Val.str "jd@example.net"))) := by rfl

example :
    (do
      let p ← Profile.init c0 wire0 false
      let p ← p.setItem "pgp_public_keys" (RT.val (Val.list ["k1"]))
      Except.ok (p.data.lookup "pgp_public_keys")) =
    Except.ok (Option.some (RT.val (Val.list ["k1"]))) := by rfl

example :
    (do
      let p ← Profile.init c0 wire0 false
      let p ← p.setItem "pgp_public_keys" (RT.val (Val.list ["k1"]))
      let (p1, g) ← Profile.sign cStaff p Option.none
      Except.ok (p1.notifications, g)) =
    Except.ok ([("pgp_public_keys", "+k1")], Option.some "staff") := by rfl

example :
    (do
      let p ← Profile.init c0 wire0 false
      let p ← p.setItem "pgp_public_keys" (RT.val (Val.list ["k1"]))
      let r ← Profile.publish cStaff p Option.none false false
      Except.ok (r.submitted, r.ret)) =
    Except.ok (true, Option.none) := by rfl

theorem pyEq_refl (v : Val) : pyEq v v = true := by
  cases v with
  | setDict ks =>
      simp only [pyEq, Bool.and_self, List.all_eq_true]
      intro x hx
      simpa using hx
  | _ => simp [pyEq]

/-- A write whose (normalized) value passes the no-op test of lines
295-298 returns immediately, leaving the attribute untouched. -/
theorem setValue_noop (a : AttrData) (nm : String) (c : Ctx) (v : Val)
    (hn : isNoop a (pyNorm v) = true) : setValue a nm c v = Except.ok (a, []) := by
  unfold setValue
  rw [if_pos hn]

/-- Any successful non-no-op write stores the normalized value. -/
theorem setValue_ok_val (a : AttrData) (nm : String) (c : Ctx) (v : Val)
    (a1 : AttrData) (ns1 : List (String × String))
    (h : setValue a nm c v = Except.ok (a1, ns1))
    (hn : isNoop a (pyNorm v) = false) : a1.val = pyNorm v := by
  unfold setValue at h
  rw [if_neg (by rw [hn]; exact Bool.false_ne_true)] at h
  split at h
  · cases h; rfl
  · split at h
    · cases h
    · split at h
      · cases h
      · split at h
        · cases h
        · cases h; rfl

theorem isNone_false_of_isSome {α : Type} {o : Option α} (h : o.isSome = true) :
    o.isNone = false := by
  cases o <;> simp_all

/-- A real (non-no-op) write on a signed attribute with resolvable
display level succeeds, rewriting the attribute via `signedWrite` and
emitting exactly one notification. -/
theorem setValue_sig_ok (a : AttrData) (nm : String) (c : Ctx) (v : Val) (md0 : Metadata)
    (hn : isNoop a (pyNorm v) = false) (hmd : a.metadata = Option.some md0)
    (hd : md0.display.isSome = true ∨ c.displayLevel.isSome = true)
    (hsig : a.signature.isSome = true) (hkey : c.hasSigningKey = true) :
    setValue a nm c v =
      Except.ok (signedWrite c a md0 v, [(nm, notifyMsg a.val (pyNorm v))]) := by
  obtain ⟨au, av, amd, asig⟩ := a
  obtain ⟨cn, cdl, chk, cpn⟩ := c
  cases asig with
  | none => exact absurd hsig (by simp)
  | some sg =>
    replace hmd : amd = Option.some md0 := hmd
    subst hmd
    replace hkey : chk = true := hkey
    subst hkey
    obtain ⟨cr, lm, disp⟩ := md0
    unfold setValue
    rw [if_neg (by rw [hn]; exact Bool.false_ne_true)]
    rcases disp with _ | d
    · rcases hdl : cdl with _ | d2
      · rw [hdl] at hd; simp at hd
      · subst hdl; rfl
    · rfl

/-- A real write on an attribute without a signature slot stores the
value and returns silently (line 306-307). -/
theorem setValue_nosig_ok (a : AttrData) (nm : String) (c : Ctx) (v : Val)
    (hn : isNoop a (pyNorm v) = false) (hsig : a.signature = Option.none) :
    setValue a nm c v = Except.ok ({ a with val := pyNorm v }, []) := by
  obtain ⟨au, av, amd, asig⟩ := a
  replace hsig : asig = Option.none := hsig
  subst hsig
  unfold setValue
  rw [if_neg (by rw [hn]; exact Bool.false_ne_true)]
  rfl

/-- A real write on a signed leaf whose display level is unset, with no
display level in the process-wide global either, raises the
configuration error of line 319. -/
theorem setValue_display_error (a : AttrData) (nm : String) (c : Ctx) (v : Val) (md0 : Metadata)
    (hn : isNoop a (pyNorm v) = false) (hmd : a.metadata = Option.some md0)
    (hdisp : md0.display = Option.none) (hdl : c.displayLevel = Option.none)
    (hsig : a.signature.isSome = true) :
    setValue a nm c v = Except.error Err.displayLevelUnset := by
  obtain ⟨au, av, amd, asig⟩ := a
  obtain ⟨cn, cdl, chk, cpn⟩ := c
  cases asig with
  | none => exact absurd hsig (by simp)
  | some sg =>
    replace hmd : amd = Option.some md0 := hmd
    subst hmd
    replace hdl : cdl = Option.none := hdl
    subst hdl
    obtain ⟨cr, lm, disp⟩ := md0
    replace hdisp : disp = Option.none := hdisp
    subst hdisp
    unfold setValue
    rw [if_neg (by rw [hn]; exact Bool.false_ne_true)]
    rfl

/-- Inversion: a successful non-no-op write on a signed attribute
emitted exactly the one notification of lines 341-357. -/
theorem setValue_ok_ns (a : AttrData) (nm : String) (c : Ctx) (v : Val)
    (a1 : AttrData) (ns1 : List (String × String))
    (h : setValue a nm c v = Except.ok (a1, ns1))
    (hn : isNoop a (pyNorm v) = false) (hsig : a.signature.isSome = true) :
    ns1 = [(nm, notifyMsg a.val (pyNorm v))] := by
  obtain ⟨au, av, amd, asig⟩ := a
  obtain ⟨cn, cdl, chk, cpn⟩ := c
  cases asig with
  | none => exact absurd hsig (by simp)
  | some sg =>
    unfold setValue at h
    rw [if_neg (by rw [hn]; exact Bool.false_ne_true)] at h
    cases amd with
    | none => exact Except.noConfusion h
    | some md0 =>
      obtain ⟨cr, lm, disp⟩ := md0
      rcases disp with _ | d
      · rcases cdl with _ | d2
        · exact Except.noConfusion h
        · rcases chk with _ | _
          · exact Except.noConfusion h
          · injection h with h1; injection h1 with h2 h3; exact h3.symm
      · rcases chk with _ | _
        · exact Except.noConfusion h
        · injection h with h1; injection h1 with h2 h3; exact h3.symm

/-- Once the normalized value is stored, re-writing the same value
passes the no-op test. -/
theorem isNoop_of_stored (a1 : AttrData) (v : Val) (hval : a1.val = pyNorm v) :
    isNoop a1 (pyNorm v) = true := by
  unfold isNoop
  rw [hval, pyEq_refl]
  rfl

/-- C2 (amended): writing a value twice in a row leaves the second
write a complete no-op — the attribute (stored value, timestamps,
signature) is unchanged and no notification is emitted — so all
notifications come from the first write, and when the first write
actually changes the stored value of a leaf carrying a signature slot
it emits exactly one notification.  A write is a no-op in exactly two
cases: the value is `pyEq`-equal (Python `==`) to the current one, or
an empty/absent value (`None`, `[]`, `{}`) is written while the stored
value is precisely `None` (line 297).  Writing an empty value over a
stored empty container other than `None` (such as `{}` or `[]`) is
*not* a no-op: it is a real write (last conjunct). -/
theorem write_idempotent (a : AttrData) (nm : String) (c c2 : Ctx) (v : Val) :
    (∀ a1 ns1, setValue a nm c v = Except.ok (a1, ns1) →
       setValue a1 nm c2 v = Except.ok (a1, []) ∧
       (isNoop a (pyNorm v) = false → a.signature.isSome = true →
         ns1.length = 1)) ∧
    (pyEq a.val (pyNorm v) = true → setValue a nm c v = Except.ok (a, [])) ∧
    (a.val = Val.none →
       (pyNorm v = Val.none ∨ pyNorm v = Val.list [] ∨ pyNorm v = Val.setDict []) →
       setValue a nm c v = Except.ok (a, [])) ∧
    ((match a.val with | Val.none => true | _ => false) = false →
       pyEq a.val (pyNorm v) = false → isNoop a (pyNorm v) = false) := by
  refine ⟨?_, ?_, ?_, ?_⟩
  · intro a1 ns1 h
    constructor
    · by_cases hnp : isNoop a (pyNorm v) = true
      · rw [setValue_noop a nm c v hnp] at h
        injection h with h1
        injection h1 with h2 h3
        subst h2
        exact setValue_noop a nm c2 v hnp
      · replace hnp : isNoop a (pyNorm v) = false := by
          cases hq : isNoop a (pyNorm v)
          · rfl
          · exact absurd hq hnp
        have hval := setValue_ok_val a nm c v a1 ns1 h hnp
        exact setValue_noop a1 nm c2 v (isNoop_of_stored a1 v hval)
    · intro hn hsig
      rw [setValue_ok_ns a nm c v a1 ns1 h hn hsig]
      rfl
  · intro hpe
    apply setValue_noop
    unfold isNoop
    rw [hpe]
    rfl
  · intro hnone hempty
    apply setValue_noop
    unfold isNoop
    rw [hnone]
    rcases hempty with he | he | he <;> rw [he] <;> rfl
  · intro hnn hpe
    unfold isNoop
    rw [hpe, hnn]
    rfl

/-- C2 as stated is false on two counts: writing a value equal to the
current value twice produces zero notifications, not exactly one; and
writing the empty list onto a leaf whose stored value is the empty dict
is not a no-op — the stored value is replaced and the notification
reads Python `\x7b\x7d --> []`. -/
theorem write_idempotent_cex :
    ((do
      let r1 ← setValue (attrScalar (Val.str "x")) "k" cStaff (Val.str "x")
      let r2 ← setValue r1.1 "k" cStaff (Val.str "x")
      Except.ok (r1.2 ++ r2.2)) = Except.ok ([] : List (String × String)) ∧
     ([] : List (String × String)).length ≠ 1) ∧
    (setValue (attrSet (Val.setDict [])) "k" cStaff (Val.list []) =
       Except.ok
         (signedWrite cStaff (attrSet (Val.setDict [])) mdSentinel (Val.list []),
          [("k", "\x7b\x7d --> []")]) ∧
     (signedWrite cStaff (attrSet (Val.setDict [])) mdSentinel
         (Val.list [])).val = Val.list [] ∧
     Val.list [] ≠ Val.setDict []) := by
  exact ⟨⟨rfl, by decide⟩, rfl, rfl, fun h => Val.noConfusion h⟩

/-- Concrete instance of `write_idempotent`: a real first write emits
one notification, the identical second write leaves the rewritten
attribute untouched, and an empty list over a stored empty dict is not
a no-op. -/
theorem write_idempotent_witness :
    setValue (signedWrite cStaff (attrScalar (Val.str "old")) mdSentinel (Val.str "new"))
        "k" cStaff (Val.str "new") =
      Except.ok
        (signedWrite cStaff (attrScalar (Val.str "old")) mdSentinel (Val.str "new"), []) ∧
    [("k", "old --> new")].length = 1 ∧
    isNoop (attrSet (Val.setDict [])) (pyNorm (Val.list [])) = false :=
  ⟨((write_idempotent (attrScalar (Val.str "old")) "k" cStaff cStaff (Val.str "new")).1
      (signedWrite cStaff (attrScalar (Val.str "old")) mdSentinel (Val.str "new"))
      [("k", "old --> new")] (by rfl)).1,
   ((write_idempotent (attrScalar (Val.str "old")) "k" cStaff cStaff (Val.str "new")).1
      (signedWrite cStaff (attrScalar (Val.str "old")) mdSentinel (Val.str "new"))
      [("k", "old --> new")] (by rfl)).2 (by rfl) (by rfl),
   (write_idempotent (attrSet (Val.setDict [])) "k" cStaff cStaff
      (Val.list [])).2.2.2 (by rfl) (by rfl)⟩

theorem stampTimes_display (c : Ctx) (md : Metadata) :
    (stampTimes c md).display = md.display := by
  unfold stampTimes; split <;> rfl

theorem resolveDisplay_display (c : Ctx) (md : Metadata) :
    (resolveDisplay c md).display =
      (if md.display.isNone = true then c.displayLevel else md.display) := by
  unfold resolveDisplay; split <;> simp_all

/-- Once a leaf's metadata carries a display level, no write on it can
raise the display-level configuration error. -/
theorem setValue_display_resolved_no_error (a : AttrData) (nm : String) (c : Ctx)
    (v : Val) (md : Metadata) (hmd : a.metadata = Option.some md)
    (hdisp : md.display.isSome = true) :
    setValue a nm c v ≠ Except.error Err.displayLevelUnset := by
  intro h
  obtain ⟨au, av, amd, asig⟩ := a
  obtain ⟨cn, cdl, chk, cpn⟩ := c
  replace hmd : amd = Option.some md := hmd
  subst hmd
  obtain ⟨cr, lm, disp⟩ := md
  rcases disp with _ | d
  · simp at hdisp
  · unfold setValue at h
    by_cases hnp : isNoop
        { usesValues := au, val := av,
          metadata := Option.some { created := cr, lastModified := lm,
                                    display := Option.some d },
          signature := asig } (pyNorm v) = true
    · rw [if_pos hnp] at h
      exact Except.noConfusion h
    · rw [if_neg hnp] at h
      cases asig with
      | none => exact Except.noConfusion h
      | some sg =>
        cases chk with
        | false =>
            injection h with h1
            exact Err.noConfusion h1
        | true => exact Except.noConfusion h

/-- C4: writing to a signable leaf (a real change on a signed leaf)
whose display level is unset fails with the display-level configuration
error when the signing operation supplied none either; when a level is
resolvable — already on the leaf, or supplied to the sign — the write
succeeds and the resolved level is persisted on the leaf's metadata, so
no later write on the leaf can fail for a missing display level. -/
theorem display_level_enforcement (a : AttrData) (nm : String) (c : Ctx) (v : Val)
    (md0 : Metadata) (hmd : a.metadata = Option.some md0)
    (hsig : a.signature.isSome = true) (hch : isNoop a (pyNorm v) = false)
    (hkey : c.hasSigningKey = true) :
    (md0.display = Option.none → c.displayLevel = Option.none →
       setValue a nm c v = Except.error Err.displayLevelUnset) ∧
    (∀ d, (md0.display = Option.some d ∨
           (md0.display = Option.none ∧ c.displayLevel = Option.some d)) →
       ∃ a1 ns1 md1, setValue a nm c v = Except.ok (a1, ns1) ∧
         a1.metadata = Option.some md1 ∧ md1.display = Option.some d ∧
         ∀ (c3 : Ctx) (v3 : Val),
           setValue a1 nm c3 v3 ≠ Except.error Err.displayLevelUnset) := by
  constructor
  · intro hdisp hdl
    exact setValue_display_error a nm c v md0 hch hmd hdisp hdl hsig
  · intro d hd
    have hds : md0.display.isSome = true ∨ c.displayLevel.isSome = true := by
      rcases hd with hd | ⟨hd1, hd2⟩
      · exact Or.inl (by rw [hd]; rfl)
      · exact Or.inr (by rw [hd2]; rfl)
    refine ⟨signedWrite c a md0 v, [(nm, notifyMsg a.val (pyNorm v))],
            resolveDisplay c (stampTimes c md0), ?_, rfl, ?_, ?_⟩
    · exact setValue_sig_ok a nm c v md0 hch hmd hds hsig hkey
    · rw [resolveDisplay_display, stampTimes_display]
      rcases hd with hd | ⟨hd1, hd2⟩
      · rw [hd]; rfl
      · rw [hd1, hd2]; rfl
    · intro c3 v3
      apply setValue_display_resolved_no_error _ _ _ _
        (resolveDisplay c (stampTimes c md0)) rfl
      rw [resolveDisplay_display, stampTimes_display]
      rcases hd with hd | ⟨hd1, hd2⟩
      · rw [hd]; rfl
      · rw [hd1, hd2]; rfl

/-- Concrete instance of `display_level_enforcement`: the skeleton
scalar leaf, written under an empty global, fails; under a `"staff"`
global it succeeds and persists `"staff"` on the leaf. -/
theorem display_level_enforcement_witness :
    setValue (attrScalar (Val.str "old")) "k" c0 (Val.str "new") =
      Except.error Err.displayLevelUnset ∧
    (∃ a1 ns1 md1,
       setValue (attrScalar (Val.str "old")) "k" cStaff (Val.str "new") =
         Except.ok (a1, ns1) ∧
       a1.metadata = Option.some md1 ∧ md1.display = Option.some "staff" ∧
       ∀ (c3 : Ctx) (v3 : Val),
         setValue a1 "k" c3 v3 ≠ Except.error Err.displayLevelUnset) :=
  ⟨(display_level_enforcement (attrScalar (Val.str "old")) "k" c0 (Val.str "new")
      mdSentinel (by rfl) (by rfl) (by rfl) (by rfl)).1 (by rfl) (by rfl),
   (display_level_enforcement (attrScalar (Val.str "old")) "k" cStaff (Val.str "new")
      mdSentinel (by rfl) (by rfl) (by rfl) (by rfl)).2 "staff"
     (Or.inr ⟨by rfl, by rfl⟩)⟩

/-- The change description as the spec words it: the added members then
the removed members (plain set differences), each group sorted
lexicographically, rendered as `+m` / `-m` joined by `", "`, with the
separator between the two groups omitted when either group is empty. -/
def specSetDiffDesc (initial new : List String) : String :=
  let adds := (sortStr (dedupL (new.filter (fun m => !initial.contains m)))).map
    (fun m => "+" ++ m)
  let rems := (sortStr (dedupL (initial.filter (fun m => !new.contains m)))).map
    (fun m => "-" ++ m)
  if adds.isEmpty || rems.isEmpty then commaJoin (adds ++ rems)
  else commaJoin adds ++ ", " ++ commaJoin rems

theorem prefixed_ne_empty (p m : String) (hp : p.length ≠ 0) : p ++ m ≠ "" := by
  intro h
  have hl : (p ++ m).length = 0 := by rw [h]; rfl
  rw [String.length_append] at hl
  omega

theorem commaJoin_cons_ne_empty (x : String) (xs : List String) (hx : x ≠ "") :
    commaJoin (x :: xs) ≠ "" := by
  cases xs with
  | nil => exact hx
  | cons y ys =>
      show x ++ ", " ++ commaJoin (y :: ys) ≠ ""
      intro h
      have hl : (x ++ ", " ++ commaJoin (y :: ys)).length = 0 := by rw [h]; rfl
      rw [String.length_append, String.length_append] at hl
      have hx0 : x.length ≠ 0 := fun h0 => hx (by
        cases x with
        | mk data => cases data with
          | nil => rfl
          | cons c cs => simp [String.length] at h0)
      omega

/-- The message built at lines 343-351 coincides with the spec's
rendering of the set diff. -/
theorem listDiffMsg_eq_spec (iks ks : List String) :
    listDiffMsg iks ks = specSetDiffDesc iks ks := by
  unfold listDiffMsg specSetDiffDesc
  rcases hA : sortStr (dedupL (ks.filter (fun x => !iks.contains x))) with _ | ⟨a, as⟩ <;>
    rcases hD : sortStr (dedupL (iks.filter (fun x => !ks.contains x))) with _ | ⟨d, ds⟩
  · rfl
  · show (if ("" != "" && commaJoin (("-" ++ d) :: ds.map (fun i => "-" ++ i)) != "") = true
          then _ else _) = _
    simp only [bne_self_eq_false, Bool.false_and, if_false]
    rfl
  · have ha := commaJoin_cons_ne_empty ("+" ++ a) (as.map (fun i => "+" ++ i))
      (prefixed_ne_empty "+" a (by decide))
    have ha2 : (commaJoin (("+" ++ a) :: as.map (fun i => "+" ++ i)) != "") = true :=
      bne_iff_ne.mpr ha
    show (if (commaJoin (("+" ++ a) :: as.map (fun i => "+" ++ i)) != "" &&
              "" != "") = true then _ else _) = _
    simp only [bne_self_eq_false, Bool.and_false, if_false]
    show commaJoin (("+" ++ a) :: as.map (fun i => "+" ++ i)) ++ "" = _
    rw [String.append_empty]
    show _ = commaJoin ((("+" ++ a) :: as.map (fun i => "+" ++ i)) ++ [])
    rw [List.append_nil]
  · have ha2 : (commaJoin (("+" ++ a) :: as.map (fun i => "+" ++ i)) != "") = true :=
      bne_iff_ne.mpr (commaJoin_cons_ne_empty ("+" ++ a) (as.map (fun i => "+" ++ i))
        (prefixed_ne_empty "+" a (by decide)))
    have hd2 : (commaJoin (("-" ++ d) :: ds.map (fun i => "-" ++ i)) != "") = true :=
      bne_iff_ne.mpr (commaJoin_cons_ne_empty ("-" ++ d) (ds.map (fun i => "-" ++ i))
        (prefixed_ne_empty "-" d (by decide)))
    show (if (commaJoin (("+" ++ a) :: as.map (fun i => "+" ++ i)) != "" &&
              commaJoin (("-" ++ d) :: ds.map (fun i => "-" ++ i)) != "") = true
          then _ else _) = _
    rw [ha2, hd2]
    rfl

/-- C5: when a set-shaped value replaces a set-shaped value on a
signable leaf, the change description lists the added members then the
removed members, each group sorted lexicographically, rendered as `+m`
and `-m` joined by `", "`, with the separator between the two groups
omitted when either group is empty. -/
theorem set_diff_description (a : AttrData) (nm : String) (c : Ctx) (v : Val)
    (iks ks : List String) (md0 : Metadata)
    (hval : a.val = Val.setDict iks) (hnorm : pyNorm v = Val.setDict ks)
    (hch : isNoop a (pyNorm v) = false) (hmd : a.metadata = Option.some md0)
    (hds : md0.display.isSome = true ∨ c.displayLevel.isSome = true)
    (hsig : a.signature.isSome = true) (hkey : c.hasSigningKey = true) :
    setValue a nm c v =
      Except.ok (signedWrite c a md0 v, [(nm, specSetDiffDesc iks ks)]) := by
  rw [setValue_sig_ok a nm c v md0 hch hmd hds hsig hkey]
  have hmsg : notifyMsg a.val (pyNorm v) = specSetDiffDesc iks ks := by
    rw [hval, hnorm]
    exact listDiffMsg_eq_spec iks ks
  rw [hmsg]

/-- Concrete instance of `set_diff_description`: writing the list
`["d","c","b"]` (normalized to the set `{b,c,d}`) over the stored set
`{a,b,c}` yields exactly the description `"+d, -a"`. -/
theorem set_diff_description_witness :
    setValue (attrSet (Val.setDict ["a", "b", "c"])) "pgp_public_keys" cStaff
        (Val.list ["d", "c", "b"]) =
      Except.ok
        (signedWrite cStaff (attrSet (Val.setDict ["a", "b", "c"])) mdSentinel
          (Val.list ["d", "c", "b"]),
         [("pgp_public_keys", "+d, -a")]) := by
  rw [set_diff_description (attrSet (Val.setDict ["a", "b", "c"])) "pgp_public_keys"
    cStaff (Val.list ["d", "c", "b"]) ["a", "b", "c"] ["b", "c", "d"] mdSentinel
    (by rfl) (by rfl) (by rfl) (by rfl) (Or.inr (by rfl)) (by rfl) (by rfl)]
  rfl

/-- The `created` timestamp of an attribute (empty when the metadata
dict is absent, which the signed-write paths exclude). -/
def createdOf (a : AttrData) : String :=
  match a.metadata with
  | Option.some md => md.created
  | Option.none => ""

/-- The `last_modified` timestamp of an attribute. -/
def lastModifiedOf (a : AttrData) : String :=
  match a.metadata with
  | Option.some md => md.lastModified
  | Option.none => ""

/-- The states an attribute passes through under a sequence of writes
(initial state included); `Option.none` when some write raises. -/
def writeTrace (a : AttrData) (nm : String) : List (Ctx × Val) → Option (List AttrData)
  | [] => Option.some [a]
  | (c, v) :: ws =>
      match setValue a nm c v with
      | Except.ok (a', _) => (writeTrace a' nm ws).map (fun tr => a :: tr)
      | Except.error _ => Option.none

/-- How many adjacent positions of a list differ. -/
def countChanges : List String → Nat
  | [] => 0
  | [_] => 0
  | x :: y :: ys => (if x == y then 0 else 1) + countChanges (y :: ys)

theorem resolveDisplay_created (c : Ctx) (md : Metadata) :
    (resolveDisplay c md).created = md.created := by
  unfold resolveDisplay; split <;> rfl

theorem resolveDisplay_lastModified (c : Ctx) (md : Metadata) :
    (resolveDisplay c md).lastModified = md.lastModified := by
  unfold resolveDisplay; split <;> rfl

theorem stampTimes_created (c : Ctx) (md : Metadata) :
    (stampTimes c md).created =
      (if (md.created.take 4 == "1970") = true then c.now else md.created) := by
  unfold stampTimes
  split <;> rfl

theorem stampTimes_lastModified (c : Ctx) (md : Metadata) :
    (stampTimes c md).lastModified = c.now := by
  unfold stampTimes; split <;> rfl

theorem createdOf_eq (a : AttrData) (md : Metadata)
    (h : a.metadata = Option.some md) : createdOf a = md.created := by
  unfold createdOf; rw [h]

theorem lastModifiedOf_eq (a : AttrData) (md : Metadata)
    (h : a.metadata = Option.some md) : lastModifiedOf a = md.lastModified := by
  unfold lastModifiedOf; rw [h]

/-- Inversion: a successful non-no-op write on a signed attribute went
through the signing path, so the result is `signedWrite`. -/
theorem setValue_ok_attr (a : AttrData) (nm : String) (c : Ctx) (v : Val)
    (a' : AttrData) (ns : List (String × String))
    (h : setValue a nm c v = Except.ok (a', ns))
    (hn : isNoop a (pyNorm v) = false) (hsig : a.signature.isSome = true) :
    ∃ md0, a.metadata = Option.some md0 ∧ a' = signedWrite c a md0 v := by
  obtain ⟨au, av, amd, asig⟩ := a
  obtain ⟨cn, cdl, chk, cpn⟩ := c
  cases asig with
  | none => exact absurd hsig (by simp)
  | some sg =>
    unfold setValue at h
    rw [if_neg (by rw [hn]; exact Bool.false_ne_true)] at h
    cases amd with
    | none => exact Except.noConfusion h
    | some md0 =>
      refine ⟨md0, rfl, ?_⟩
      obtain ⟨cr, lm, disp⟩ := md0
      rcases disp with _ | d
      · rcases cdl with _ | d2
        · exact Except.noConfusion h
        · rcases chk with _ | _
          · exact Except.noConfusion h
          · injection h with h1; injection h1 with h2 h3; exact h2.symm
      · rcases chk with _ | _
        · exact Except.noConfusion h
        · injection h with h1; injection h1 with h2 h3; exact h2.symm

/-- Single-step effect of a successful write on a signed attribute:
either the no-op branch fired and the attribute is untouched, or the
value really changed, `created` was overwritten exactly when it still
held the 1970 sentinel, and `last_modified` was refreshed. -/
theorem setValue_step (a : AttrData) (nm : String) (c : Ctx) (v : Val)
    (a' : AttrData) (ns : List (String × String))
    (h : setValue a nm c v = Except.ok (a', ns))
    (hsig : a.signature.isSome = true) :
    a' = a ∨
    (createdOf a' = (if ((createdOf a).take 4 == "1970") = true
                     then c.now else createdOf a) ∧
     lastModifiedOf a' = c.now ∧
     a'.val = pyNorm v ∧ a'.val ≠ a.val ∧
     a'.signature.isSome = true ∧ a'.metadata.isSome = true) := by
  by_cases hnp : isNoop a (pyNorm v) = true
  · left
    rw [setValue_noop a nm c v hnp] at h
    injection h with h1
    injection h1 with h2 h3
    exact h2.symm
  · right
    replace hnp : isNoop a (pyNorm v) = false := by
      cases hq : isNoop a (pyNorm v)
      · rfl
      · exact absurd hq hnp
    have hpe : pyEq a.val (pyNorm v) = false := by
      unfold isNoop at hnp
      exact (Bool.or_eq_false_iff.mp hnp).1
    have hval := setValue_ok_val a nm c v a' ns h hnp
    have hne : a'.val ≠ a.val := by
      rw [hval]
      intro heq
      rw [← heq, pyEq_refl] at hpe
      exact Bool.noConfusion hpe
    obtain ⟨md0, hmd0, hsw⟩ := setValue_ok_attr a nm c v a' ns h hnp hsig
    rw [hsw] at hval hne
    rw [hsw, createdOf_eq a md0 hmd0]
    refine ⟨?_, ?_, hval, hne, rfl, rfl⟩
    · rw [createdOf_eq (signedWrite c a md0 v) (resolveDisplay c (stampTimes c md0)) rfl,
          resolveDisplay_created, stampTimes_created]
    · rw [lastModifiedOf_eq (signedWrite c a md0 v) (resolveDisplay c (stampTimes c md0)) rfl,
          resolveDisplay_lastModified, stampTimes_lastModified]

theorem writeTrace_head (a : AttrData) (nm : String) (ws : List (Ctx × Val))
    (tr : List AttrData) (h : writeTrace a nm ws = Option.some tr) :
    ∃ rest, tr = a :: rest := by
  cases ws with
  | nil => exact ⟨[], (Option.some.inj h).symm⟩
  | cons cv ws' =>
      obtain ⟨c, v⟩ := cv
      unfold writeTrace at h
      cases hsv : setValue a nm c v with
      | error e => rw [hsv] at h; exact Option.noConfusion h
      | ok r =>
          rw [hsv] at h
          obtain ⟨tr', htr', heq⟩ := Option.map_eq_some'.mp h
          exact ⟨tr', heq.symm⟩

theorem writeTrace_stable (nm : String) (ws : List (Ctx × Val)) :
    ∀ (a : AttrData) (tr : List AttrData),
      a.signature.isSome = true →
      ((createdOf a).take 4 == "1970") = false →
      writeTrace a nm ws = Option.some tr →
      ∀ b ∈ tr, createdOf b = createdOf a := by
  induction ws with
  | nil =>
      intro a tr hsig hsent htr b hb
      replace htr : Option.some [a] = Option.some tr := htr
      rw [← Option.some.inj htr] at hb
      simp at hb
      rw [hb]
  | cons cv ws' ih =>
      obtain ⟨c, v⟩ := cv
      intro a tr hsig hsent htr b hb
      unfold writeTrace at htr
      cases hsv : setValue a nm c v with
      | error e => rw [hsv] at htr; exact Option.noConfusion htr
      | ok r =>
          obtain ⟨a1, ns1⟩ := r
          rw [hsv] at htr
          obtain ⟨tr', htr', heq⟩ := Option.map_eq_some'.mp htr
          rw [← heq] at hb
          cases hb with
          | head => rfl
          | tail _ hb =>
              rcases setValue_step a nm c v a1 ns1 hsv hsig with hst | hst
              · rw [hst] at htr'
                exact ih a tr' hsig hsent htr' b hb
              · obtain ⟨hcr, hlm, hv, hne, hsig', hmd'⟩ := hst
                rw [hsent, if_neg Bool.false_ne_true] at hcr
                have hsent' : ((createdOf a1).take 4 == "1970") = false := by
                  rw [hcr]; exact hsent
                have := ih a1 tr' hsig' hsent' htr' b hb
                rw [this, hcr]

theorem countChanges_const (k : String) :
    ∀ l : List String, (∀ x ∈ l, x = k) → countChanges l = 0 := by
  intro l
  induction l with
  | nil => intro _; rfl
  | cons x xs ih =>
      intro h
      cases xs with
      | nil => rfl
      | cons y ys =>
          show (if x == y then 0 else 1) + countChanges (y :: ys) = 0
          have hx : x = k := h x (by simp)
          have hy : y = k := h y (by simp)
          subst hx
          have := ih (fun z hz => h z (List.mem_cons_of_mem x hz))
          rw [hy]
          simp only [beq_self_eq_true, if_true]
          rw [hy] at this
          omega

theorem writeTrace_length (nm : String) (ws : List (Ctx × Val)) :
    ∀ (a : AttrData) (tr : List AttrData),
      writeTrace a nm ws = Option.some tr → tr.length = ws.length + 1 := by
  induction ws with
  | nil =>
      intro a tr htr
      replace htr : Option.some [a] = Option.some tr := htr
      rw [← Option.some.inj htr]
      rfl
  | cons cv ws' ih =>
      obtain ⟨c, v⟩ := cv
      intro a tr htr
      unfold writeTrace at htr
      cases hsv : setValue a nm c v with
      | error e => rw [hsv] at htr; exact Option.noConfusion htr
      | ok r =>
          obtain ⟨a1, ns1⟩ := r
          rw [hsv] at htr
          obtain ⟨tr', htr', heq⟩ := Option.map_eq_some'.mp htr
          rw [← heq]
          have := ih a1 tr' htr'
          simp [this]

theorem writeTrace_count (nm : String) (ws : List (Ctx × Val)) :
    ∀ (a : AttrData) (tr : List AttrData),
      a.signature.isSome = true →
      (∀ cv ∈ ws, (((cv : Ctx × Val).1.now.take 4) == "1970") = false) →
      writeTrace a nm ws = Option.some tr →
      countChanges (tr.map createdOf) ≤ 1 := by
  induction ws with
  | nil =>
      intro a tr _ _ htr
      replace htr : Option.some [a] = Option.some tr := htr
      rw [← Option.some.inj htr]
      exact Nat.le_succ 0
  | cons cv ws' ih =>
      obtain ⟨c, v⟩ := cv
      intro a tr hsig hnow htr
      unfold writeTrace at htr
      cases hsv : setValue a nm c v with
      | error e => rw [hsv] at htr; exact Option.noConfusion htr
      | ok r =>
          obtain ⟨a1, ns1⟩ := r
          rw [hsv] at htr
          obtain ⟨tr', htr', heq⟩ := Option.map_eq_some'.mp htr
          obtain ⟨rest, hrest⟩ := writeTrace_head a1 nm ws' tr' htr'
          rw [← heq, hrest]
          show (if createdOf a == createdOf a1 then 0 else 1) +
               countChanges (createdOf a1 :: rest.map createdOf) ≤ 1
          rcases setValue_step a nm c v a1 ns1 hsv hsig with hst | hst
          · subst hst
            have hih := ih a1 tr' hsig
              (fun cv h => hnow cv (List.mem_cons_of_mem _ h)) htr'
            rw [hrest] at hih
            simp only [beq_self_eq_true, if_true]
            simpa using hih
          · obtain ⟨hcr, hlm, hv, hne, hsig', hmd'⟩ := hst
            cases hsent : ((createdOf a).take 4 == "1970") with
            | false =>
                rw [hsent, if_neg Bool.false_ne_true] at hcr
                have hih := ih a1 tr' hsig'
                  (fun cv h => hnow cv (List.mem_cons_of_mem _ h)) htr'
                rw [hrest] at hih
                rw [← hcr]
                simp only [beq_self_eq_true, if_true]
                simpa using hih
            | true =>
                rw [hsent, if_pos rfl] at hcr
                have hsent' : ((createdOf a1).take 4 == "1970") = false := by
                  rw [hcr]
                  exact hnow (c, v) (by simp)
                have hstable := writeTrace_stable nm ws' a1 tr' hsig' hsent' htr'
                have hzero : countChanges (tr'.map createdOf) = 0 := by
                  apply countChanges_const (createdOf a1)
                  intro x hx
                  obtain ⟨b, hb, hbx⟩ := List.mem_map.mp hx
                  rw [← hbx]
                  exact hstable b hb
                rw [hrest] at hzero
                have hz2 : countChanges (createdOf a1 :: rest.map createdOf) = 0 := by
                  simpa using hzero
                rw [hz2]
                split <;> omega

theorem writeTrace_lastmod (nm : String) (ws : List (Ctx × Val)) :
    ∀ (a : AttrData) (tr : List AttrData),
      a.signature.isSome = true →
      writeTrace a nm ws = Option.some tr →
      ∀ i (h0 : i < tr.length) (h1 : i + 1 < tr.length) (h2 : i < ws.length),
        (tr[i + 1]).val ≠ (tr[i]).val →
        lastModifiedOf (tr[i + 1]) = (ws[i]).1.now := by
  induction ws with
  | nil =>
      intro a tr _ _ i _ _ h2
      exact absurd h2 (by simp)
  | cons cv ws' ih =>
      obtain ⟨c, v⟩ := cv
      intro a tr hsig htr i h0 h1 h2 hneq
      unfold writeTrace at htr
      cases hsv : setValue a nm c v with
      | error e => rw [hsv] at htr; exact Option.noConfusion htr
      | ok r =>
          obtain ⟨a1, ns1⟩ := r
          rw [hsv] at htr
          obtain ⟨tr', htr', heq⟩ := Option.map_eq_some'.mp htr
          subst heq
          obtain ⟨rest, hrest⟩ := writeTrace_head a1 nm ws' tr' htr'
          cases i with
          | zero =>
              subst hrest
              simp only [List.getElem_cons_succ, List.getElem_cons_zero] at hneq ⊢
              rcases setValue_step a nm c v a1 ns1 hsv hsig with hst | hst
              · rw [hst] at hneq; exact absurd rfl hneq
              · exact hst.2.1
          | succ j =>
              simp only [List.getElem_cons_succ] at hneq ⊢
              have hsig' : a1.signature.isSome = true := by
                rcases setValue_step a nm c v a1 ns1 hsv hsig with hst | hst
                · rw [hst]; exact hsig
                · exact hst.2.2.2.2.1
              have hl0 : j < tr'.length := by
                simp only [List.length_cons] at h0
                omega
              have hl1 : j + 1 < tr'.length := by
                simp only [List.length_cons] at h1
                omega
              have hl2 : j < ws'.length := by
                simp only [List.length_cons] at h2
                omega
              exact ih a1 tr' hsig' htr' j hl0 hl1 hl2 hneq

/-- `created` is overwritten only while it still holds the 1970
sentinel: whenever consecutive trace states disagree on `created`, the
earlier state's `created` began with "1970" (lines 310-311). -/
theorem writeTrace_sentinel (nm : String) (ws : List (Ctx × Val)) :
    ∀ (a : AttrData) (tr : List AttrData),
      a.signature.isSome = true →
      writeTrace a nm ws = Option.some tr →
      ∀ i (h0 : i < tr.length) (h1 : i + 1 < tr.length),
        createdOf (tr[i + 1]) ≠ createdOf (tr[i]) →
        (((createdOf (tr[i])).take 4) == "1970") = true := by
  induction ws with
  | nil =>
      intro a tr _ htr i h0 h1
      replace htr : Option.some [a] = Option.some tr := htr
      rw [← Option.some.inj htr] at h1
      exact absurd h1 (by simp)
  | cons cv ws' ih =>
      obtain ⟨c, v⟩ := cv
      intro a tr hsig htr i h0 h1 hne
      unfold writeTrace at htr
      cases hsv : setValue a nm c v with
      | error e => rw [hsv] at htr; exact Option.noConfusion htr
      | ok r =>
          obtain ⟨a1, ns1⟩ := r
          rw [hsv] at htr
          obtain ⟨tr', htr', heq⟩ := Option.map_eq_some'.mp htr
          subst heq
          obtain ⟨rest, hrest⟩ := writeTrace_head a1 nm ws' tr' htr'
          cases i with
          | zero =>
              subst hrest
              simp only [List.getElem_cons_succ, List.getElem_cons_zero] at hne ⊢
              rcases setValue_step a nm c v a1 ns1 hsv hsig with hst | hst
              · rw [hst] at hne; exact absurd rfl hne
              · obtain ⟨hcr, _, _, _, _, _⟩ := hst
                cases hsent : ((createdOf a).take 4 == "1970") with
                | true => rfl
                | false =>
                    rw [hsent, if_neg Bool.false_ne_true] at hcr
                    exact absurd hcr hne
          | succ j =>
              simp only [List.getElem_cons_succ] at hne ⊢
              have hsig' : a1.signature.isSome = true := by
                rcases setValue_step a nm c v a1 ns1 hsv hsig with hst | hst
                · rw [hst]; exact hsig
                · exact hst.2.2.2.2.1
              have hl0 : j < tr'.length := by
                simp only [List.length_cons] at h0
                omega
              have hl1 : j + 1 < tr'.length := by
                simp only [List.length_cons] at h1
                omega
              exact ih a1 tr' hsig' htr' j hl0 hl1 hne

/-- The second write context of the C6 witness trace (one day
later). -/
def cNext : Ctx := { cStaff with now := "2026-10-13T00:00:00.000Z" }

/-- The C6 witness write sequence: two real writes at different
times. -/
def wsW : List (Ctx × Val) := [(cStaff, Val.str "w1"), (cNext, Val.str "w2")]

/-- The attribute states the C6 witness trace passes through. -/
def trW : List AttrData :=
  [attrScalar Val.none,
   signedWrite cStaff (attrScalar Val.none) mdSentinel (Val.str "w1"),
   signedWrite cNext
     (signedWrite cStaff (attrScalar Val.none) mdSentinel (Val.str "w1"))
     (resolveDisplay cStaff (stampTimes cStaff mdSentinel)) (Val.str "w2")]

/-- C6: across any successful sequence of writes on a signable leaf
(one that carries a signature slot, with the ambient clock never
reading 1970), the `created` timestamp changes at most once along the
trace, and it is overwritten only while it still holds the 1970
sentinel — so once `created` carries a real date it is immutable —
while `last_modified` equals the writing step's clock after every step
that actually changed the stored value. -/
theorem created_once_modified_refreshed (a : AttrData) (nm : String)
    (ws : List (Ctx × Val)) (tr : List AttrData)
    (hsig : a.signature.isSome = true)
    (hnow : ∀ cv ∈ ws, (((cv : Ctx × Val).1.now.take 4) == "1970") = false)
    (htr : writeTrace a nm ws = Option.some tr) :
    countChanges (tr.map createdOf) ≤ 1 ∧
    (∀ i (h0 : i < tr.length) (h1 : i + 1 < tr.length),
       createdOf (tr[i + 1]) ≠ createdOf (tr[i]) →
       (((createdOf (tr[i])).take 4) == "1970") = true) ∧
    (∀ i (h0 : i < tr.length) (h1 : i + 1 < tr.length) (h2 : i < ws.length),
       (tr[i + 1]).val ≠ (tr[i]).val →
       lastModifiedOf (tr[i + 1]) = (ws[i]).1.now) :=
  ⟨writeTrace_count nm ws a tr hsig hnow htr,
   writeTrace_sentinel nm ws a tr hsig htr,
   writeTrace_lastmod nm ws a tr hsig htr⟩

/-- Concrete instance of `created_once_modified_refreshed` on a
two-write trace. -/
theorem created_once_modified_refreshed_witness :
    countChanges (trW.map createdOf) ≤ 1 ∧
    (∀ i (h0 : i < trW.length) (h1 : i + 1 < trW.length),
       createdOf (trW[i + 1]) ≠ createdOf (trW[i]) →
       (((createdOf (trW[i])).take 4) == "1970") = true) ∧
    (∀ i (h0 : i < trW.length) (h1 : i + 1 < trW.length) (h2 : i < wsW.length),
       (trW[i + 1]).val ≠ (trW[i]).val →
       lastModifiedOf (trW[i + 1]) = (wsW[i]).1.now) :=
  created_once_modified_refreshed (attrScalar Val.none) "k" wsW trW (by rfl)
    (by decide) (by rfl)

/-- A minimal profile whose flat view only carries `primary_email`. -/
def pPub : Profile :=
  { baseKeys := ["primary_email"]
    profile := RTList.cons "primary_email" (RT.val (Val.str "jd@example.net")) RTList.nil
    data := RTList.cons "primary_email" (RT.val (Val.str "jd@example.net")) RTList.nil
    notifications := []
    attrs := RTList.nil }

/-- The publish outcome on `pPub` (nothing changed, so no
submission). -/
def rWpub : PublishResult :=
  { profile := pPub, newGlobal := Option.some "staff", logged := []
    submitted := false, ret := Option.none }

/-- C3 (amended): `publish` first signs, logs the accumulated
notifications sorted by Python tuple order, submits the raw document
exactly when the notification log is non-empty and dry-run mode is off
(neither the `dry_run` flag nor the `DRY_RUN` environment variable
set), and always returns `None`. -/
theorem publish_behavior (c : Ctx) (p : Profile) (dl : Option String)
    (dryRun envDryRun : Bool) (r : PublishResult)
    (h : Profile.publish c p dl dryRun envDryRun = Except.ok r) :
    Profile.sign c p dl = Except.ok (r.profile, r.newGlobal) ∧
    r.logged = sortPairs r.profile.notifications ∧
    r.submitted = (!r.profile.notifications.isEmpty && !dryRun && !envDryRun) ∧
    r.ret = Option.none := by
  unfold Profile.publish at h
  cases hs : Profile.sign c p dl with
  | error e =>
      rw [hs] at h
      exact Except.noConfusion h
  | ok pr =>
      obtain ⟨p1, g⟩ := pr
      rw [hs] at h
      cases hpe : p1.data.lookup "primary_email" with
      | none =>
          replace h : (match p1.data.lookup "primary_email" with
            | Option.none => Except.error (Err.keyError "primary_email")
            | Option.some _ =>
                Except.ok { profile := p1, newGlobal := g
                            logged := sortPairs p1.notifications
                            submitted := !p1.notifications.isEmpty && !dryRun && !envDryRun
                            ret := Option.none }) = Except.ok r := h
          rw [hpe] at h
          exact Except.noConfusion h
      | some x =>
          replace h : (match p1.data.lookup "primary_email" with
            | Option.none => Except.error (Err.keyError "primary_email")
            | Option.some _ =>
                Except.ok { profile := p1, newGlobal := g
                            logged := sortPairs p1.notifications
                            submitted := !p1.notifications.isEmpty && !dryRun && !envDryRun
                            ret := Option.none }) = Except.ok r := h
          rw [hpe] at h
          rw [← Except.ok.inj h]
          exact ⟨rfl, rfl, rfl, rfl⟩

/-- C3 as stated is false on its "returns whether any change occurred"
part: a publish that submits a change and a publish with no change both
return Python `None`. -/
theorem publish_returns_none_cex :
    ((do
        let p ← Profile.init c0 wire0 false
        let p ← p.setItem "pgp_public_keys" (RT.val (Val.list ["k1"]))
        Profile.publish cStaff p Option.none false false).map
      (fun (r : PublishResult) => (r.submitted, r.ret)) = Except.ok (true, Option.none)) ∧
    ((do
        let p ← Profile.init c0 wire0 false
        Profile.publish cStaff p Option.none false false).map
      (fun (r : PublishResult) => (r.submitted, r.ret)) = Except.ok (false, Option.none)) :=
  ⟨rfl, rfl⟩

/-- Concrete instance of `publish_behavior` on `pPub`. -/
theorem publish_behavior_witness :
    Profile.sign cStaff pPub Option.none = Except.ok (rWpub.profile, rWpub.newGlobal) ∧
    rWpub.logged = sortPairs rWpub.profile.notifications ∧
    rWpub.submitted = (!rWpub.profile.notifications.isEmpty && !false && !false) ∧
    rWpub.ret = Option.none :=
  publish_behavior cStaff pPub Option.none false false rWpub (by rfl)

/-- C8 (amended): setting a key that is not among the retrieved
document's keys is silently diverted to `setattr(self, k, v)` — never a
hard error.  For a key that does not collide with the `Profile`'s own
attribute names the value lands in a plain instance attribute and
neither the flat view nor the raw tree gains a field; but the attribute
namespace is unprotected, so assigning to `"data"` (resp. `"_profile"`)
wholesale replaces the flat view (resp. the raw tree) with the given
dict, introducing arbitrary new top-level fields. -/
theorem setItem_unknown_key (p : Profile) (k : String) (v : RT)
    (h : p.baseKeys.contains k = false) :
    ((k == "data") = false → (k == "_profile") = false →
     (k == "_base_keys") = false → (k == "_Profile__notifications") = false →
     p.setItem k v = Except.ok { p with attrs := p.attrs.set k v }) ∧
    (p.baseKeys.contains "data" = false → ∀ fs,
       p.setItem "data" (RT.pdict fs) = Except.ok { p with data := fs }) ∧
    (p.baseKeys.contains "_profile" = false → ∀ fs,
       p.setItem "_profile" (RT.pdict fs) =
         Except.ok { p with profile := fs }) := by
  refine ⟨?_, ?_, ?_⟩
  · intro hd hp hb hn
    unfold Profile.setItem
    rw [h, hd, hp, hb, hn]
    rfl
  · intro hd fs
    unfold Profile.setItem
    rw [hd]
    rfl
  · intro hp fs
    unfold Profile.setItem
    rw [hp]
    rfl

/-- C8 as stated is false: setting an unknown key is never a hard
error — a plain unknown key is silently absorbed into an instance
attribute, and the colliding key `"data"` even replaces the whole flat
view, exposing the brand-new top-level field `"evil"`. -/
theorem setItem_unknown_key_cex :
    (pPub.setItem "data"
        (RT.pdict (RTList.cons "evil" (RT.val (Val.str "x")) RTList.nil))).map
      (fun q => q.data.lookup "evil") =
      Except.ok (Option.some (RT.val (Val.str "x"))) ∧
    (pPub.setItem "bogus" (RT.val (Val.str "x"))).map
      (fun q => (q.data, q.profile, q.attrs.lookup "bogus")) =
      Except.ok (pPub.data, pPub.profile,
        Option.some (RT.val (Val.str "x"))) :=
  ⟨rfl, rfl⟩

/-- Concrete instance of `setItem_unknown_key`: a plain unknown key
lands in an instance attribute, and the colliding key `"data"` replaces
the flat view. -/
theorem setItem_unknown_key_witness :
    pPub.setItem "bogus" (RT.val (Val.str "x")) =
      Except.ok { pPub with attrs := pPub.attrs.set "bogus" (RT.val (Val.str "x")) } ∧
    pPub.setItem "data" (RT.pdict RTList.nil) =
      Except.ok { pPub with data := RTList.nil } :=
  ⟨(setItem_unknown_key pPub "bogus" (RT.val (Val.str "x")) (by rfl)).1
     (by rfl) (by rfl) (by rfl) (by rfl),
   (setItem_unknown_key pPub "bogus" (RT.val (Val.str "x")) (by rfl)).2.1
     (by rfl) RTList.nil⟩

/-- A profile with one signable leaf whose display level is unset and a
pending flat-view change. -/
def pA : Profile :=
  { baseKeys := ["k"]
    profile := RTList.cons "k" (RT.sattr (attrScalar (Val.str "old")) "k") RTList.nil
    data := RTList.cons "k" (RT.val (Val.str "new")) RTList.nil
    notifications := []
    attrs := RTList.nil }

/-- C9 (amended): `Profile.sign` with an explicit display level behaves
identically under any prior value of the process-wide `DISPLAY_LEVEL`
global, and stores the explicit level back into the global it
returns. -/
theorem sign_explicit_level_ignores_global (c : Ctx) (g1 g2 : Option String)
    (p : Profile) (dl : String) :
    Profile.sign { c with displayLevel := g1 } p (Option.some dl) =
      Profile.sign { c with displayLevel := g2 } p (Option.some dl) ∧
    (∀ q, Profile.sign { c with displayLevel := g1 } p (Option.some dl) =
            Except.ok q → q.2 = Option.some dl) := by
  constructor
  · unfold Profile.sign
    rfl
  · intro q hq
    replace hq : (walkList { c with displayLevel := Option.some dl }
        p.data true p.profile).map
        (fun r => ({ p with
                      profile := r.1
                      notifications := p.notifications ++ r.2 },
                   Option.some dl)) = Except.ok q := hq
    cases hw : walkList { c with displayLevel := Option.some dl } p.data true p.profile with
    | error e =>
        rw [hw] at hq
        exact Except.noConfusion hq
    | ok r =>
        rw [hw] at hq
        replace hq := Except.ok.inj hq
        rw [← hq]

/-- C9 as stated is false: whether a profile's sign succeeds, and which
display level its leaves receive, depends on the global another sign
call stored.  Signing `pA` with no explicit level fails under a pristine
global; after any sign call stored `"staff"` in the global (the second
conjunct — itself a sign of another profile object), the same call on
`pA` succeeds and stamps `"staff"` onto `pA`'s leaf. -/
theorem display_global_leak_cex :
    Profile.sign c0 pA Option.none = Except.error Err.displayLevelUnset ∧
    (Profile.sign c0 pA (Option.some "staff")).map
        (fun (q : Profile × Option String) => q.2) = Except.ok (Option.some "staff") ∧
    (Profile.sign cStaff pA Option.none).map
        (fun (q : Profile × Option String) => (q.1.profile.lookup "k", q.2)) =
      Except.ok
        (Option.some (RT.sattr
          (signedWrite cStaff (attrScalar (Val.str "old")) mdSentinel (Val.str "new")) "k"),
         Option.some "staff") :=
  ⟨rfl, rfl, rfl⟩

/-- The deletable-profile fields of `Profile.is_empty`, as one record of
flat values (the `usernames` mapping is given by its member list). -/
structure FlatFields where
  usernames : List String
  access_provider : Val
  alternative_name : Val
  bugzilla_mozilla_org_id : Val
  bugzilla_mozilla_org_primary_email : Val
  cost_center : Val
  custom_1_primary_email : Val
  custom_2_primary_email : Val
  custom_3_primary_email : Val
  description : Val
  director : Val
  hris : Val
  languages : Val
  ldap : Val
  location : Val
  manager : Val
  mozilla_ldap_id : Val
  mozilla_ldap_primary_email : Val
  mozilla_posix_id : Val
  mozilliansorg : Val
  mozilliansorg_id : Val
  office_location : Val
  pgp_public_keys : Val
  phone_numbers : Val
  picture : Val
  pronouns : Val
  ssh_public_keys : Val
  staff : Val
  tags : Val
  team : Val
  timezone : Val
  title : Val
  uris : Val
  worker_type : Val
  wpr_desk_number : Val

/-- The flat view holding exactly the fields `is_empty` consults. -/
def buildFlat (f : FlatFields) : RTList :=
  RTList.cons "usernames" (RT.val (Val.setDict f.usernames)) (RTList.cons "access_information" (RT.pdict (RTList.cons "access_provider" (RT.val f.access_provider) (RTList.cons "hris" (RT.val f.hris) (RTList.cons "ldap" (RT.val f.ldap) (RTList.cons "mozilliansorg" (RT.val f.mozilliansorg) (RTList.nil)))))) (RTList.cons "alternative_name" (RT.val f.alternative_name) (RTList.cons "description" (RT.val f.description) (RTList.cons "identities" (RT.pdict (RTList.cons "bugzilla_mozilla_org_id" (RT.val f.bugzilla_mozilla_org_id) (RTList.cons "bugzilla_mozilla_org_primary_email" (RT.val f.bugzilla_mozilla_org_primary_email) (RTList.cons "custom_1_primary_email" (RT.val f.custom_1_primary_email) (RTList.cons "custom_2_primary_email" (RT.val f.custom_2_primary_email) (RTList.cons "custom_3_primary_email" (RT.val f.custom_3_primary_email) (RTList.cons "mozilla_ldap_id" (RT.val f.mozilla_ldap_id) (RTList.cons "mozilla_ldap_primary_email" (RT.val f.mozilla_ldap_primary_email) (RTList.cons "mozilla_posix_id" (RT.val f.mozilla_posix_id) (RTList.cons "mozilliansorg_id" (RT.val f.mozilliansorg_id) (RTList.nil))))))))))) (RTList.cons "languages" (RT.val f.languages) (RTList.cons "location" (RT.val f.location) (RTList.cons "pgp_public_keys" (RT.val f.pgp_public_keys) (RTList.cons "phone_numbers" (RT.val f.phone_numbers) (RTList.cons "picture" (RT.val f.picture) (RTList.cons "pronouns" (RT.val f.pronouns) (RTList.cons "staff_information" (RT.pdict (RTList.cons "cost_center" (RT.val f.cost_center) (RTList.cons "director" (RT.val f.director) (RTList.cons "manager" (RT.val f.manager) (RTList.cons "office_location" (RT.val f.office_location) (RTList.cons "staff" (RT.val f.staff) (RTList.cons "team" (RT.val f.team) (RTList.cons "title" (RT.val f.title) (RTList.cons "worker_type" (RT.val f.worker_type) (RTList.cons "wpr_desk_number" (RT.val f.wpr_desk_number) (RTList.nil))))))))))) (RTList.cons "ssh_public_keys" (RT.val f.ssh_public_keys) (RTList.cons "tags" (RT.val f.tags) (RTList.cons "timezone" (RT.val f.timezone) (RTList.cons "uris" (RT.val f.uris) (RTList.nil))))))))))))))))

def buildProfile (f : FlatFields) : Profile :=
  { baseKeys := []
    profile := RTList.nil
    data := buildFlat f
    notifications := []
    attrs := RTList.nil }

/-- Truth of any listed field other than `usernames` (the tuple of
`is_empty` in source order). -/
def othersTruthy (f : FlatFields) : Bool :=
  pyTruthy (RT.val f.access_provider) ||
      pyTruthy (RT.val f.hris) ||
      pyTruthy (RT.val f.ldap) ||
      pyTruthy (RT.val f.mozilliansorg) ||
      pyTruthy (RT.val f.alternative_name) ||
      pyTruthy (RT.val f.description) ||
      pyTruthy (RT.val f.bugzilla_mozilla_org_id) ||
      pyTruthy (RT.val f.bugzilla_mozilla_org_primary_email) ||
      pyTruthy (RT.val f.custom_1_primary_email) ||
      pyTruthy (RT.val f.custom_2_primary_email) ||
      pyTruthy (RT.val f.custom_3_primary_email) ||
      pyTruthy (RT.val f.mozilla_ldap_id) ||
      pyTruthy (RT.val f.mozilla_ldap_primary_email) ||
      pyTruthy (RT.val f.mozilla_posix_id) ||
      pyTruthy (RT.val f.mozilliansorg_id) ||
      pyTruthy (RT.val f.languages) ||
      pyTruthy (RT.val f.location) ||
      pyTruthy (RT.val f.pgp_public_keys) ||
      pyTruthy (RT.val f.phone_numbers) ||
      pyTruthy (RT.val f.picture) ||
      pyTruthy (RT.val f.pronouns) ||
      pyTruthy (RT.val f.cost_center) ||
      pyTruthy (RT.val f.director) ||
      pyTruthy (RT.val f.manager) ||
      pyTruthy (RT.val f.office_location) ||
      pyTruthy (RT.val f.staff) ||
      pyTruthy (RT.val f.team) ||
      pyTruthy (RT.val f.title) ||
      pyTruthy (RT.val f.worker_type) ||
      pyTruthy (RT.val f.wpr_desk_number) ||
      pyTruthy (RT.val f.ssh_public_keys) ||
      pyTruthy (RT.val f.tags) ||
      pyTruthy (RT.val f.timezone) ||
      pyTruthy (RT.val f.uris)

/-- The claim's reading of `is_empty`: a profile is deletable exactly
when every listed field is empty, where `usernames` entries whose key
starts with `"HACK#"` are ignored. -/
def deletableSpec (f : FlatFields) : Bool :=
  !othersTruthy f && (f.usernames.filter (fun u => !strStartsWith u "HACK#")).isEmpty

theorem is_empty_eval (f : FlatFields) :
    Profile.is_empty (buildProfile f) =
      Except.ok (!(pyTruthy (RT.val f.access_provider) ||
      pyTruthy (RT.val f.hris) ||
      pyTruthy (RT.val f.ldap) ||
      pyTruthy (RT.val f.mozilliansorg) ||
      pyTruthy (RT.val f.alternative_name) ||
      pyTruthy (RT.val f.description) ||
      pyTruthy (RT.val f.bugzilla_mozilla_org_id) ||
      pyTruthy (RT.val f.bugzilla_mozilla_org_primary_email) ||
      pyTruthy (RT.val f.custom_1_primary_email) ||
      pyTruthy (RT.val f.custom_2_primary_email) ||
      pyTruthy (RT.val f.custom_3_primary_email) ||
      pyTruthy (RT.val f.mozilla_ldap_id) ||
      pyTruthy (RT.val f.mozilla_ldap_primary_email) ||
      pyTruthy (RT.val f.mozilla_posix_id) ||
      pyTruthy (RT.val f.mozilliansorg_id) ||
      pyTruthy (RT.val f.languages) ||
      pyTruthy (RT.val f.location) ||
      pyTruthy (RT.val f.pgp_public_keys) ||
      pyTruthy (RT.val f.phone_numbers) ||
      pyTruthy (RT.val f.picture) ||
      pyTruthy (RT.val f.pronouns) ||
      pyTruthy (RT.val f.cost_center) ||
      pyTruthy (RT.val f.director) ||
      pyTruthy (RT.val f.manager) ||
      pyTruthy (RT.val f.office_location) ||
      pyTruthy (RT.val f.staff) ||
      pyTruthy (RT.val f.team) ||
      pyTruthy (RT.val f.title) ||
      pyTruthy (RT.val f.worker_type) ||
      pyTruthy (RT.val f.wpr_desk_number) ||
      pyTruthy (RT.val f.ssh_public_keys) ||
      pyTruthy (RT.val f.tags) ||
      pyTruthy (RT.val f.timezone) ||
      pyTruthy (RT.val f.uris) ||
      !(f.usernames.filter (fun u => !strStartsWith u "HACK#")).isEmpty)) := rfl

/-- A profile whose only populated field is an all-HACK usernames mapping. -/
def fHack : FlatFields :=
  { usernames := ["HACK#1", "HACK#2"]
    access_provider := Val.none
    hris := Val.none
    ldap := Val.none
    mozilliansorg := Val.none
    alternative_name := Val.none
    description := Val.none
    bugzilla_mozilla_org_id := Val.none
    bugzilla_mozilla_org_primary_email := Val.none
    custom_1_primary_email := Val.none
    custom_2_primary_email := Val.none
    custom_3_primary_email := Val.none
    mozilla_ldap_id := Val.none
    mozilla_ldap_primary_email := Val.none
    mozilla_posix_id := Val.none
    mozilliansorg_id := Val.none
    languages := Val.none
    location := Val.none
    pgp_public_keys := Val.none
    phone_numbers := Val.none
    picture := Val.none
    pronouns := Val.none
    cost_center := Val.none
    director := Val.none
    manager := Val.none
    office_location := Val.none
    staff := Val.none
    team := Val.none
    title := Val.none
    worker_type := Val.none
    wpr_desk_number := Val.none
    ssh_public_keys := Val.none
    tags := Val.none
    timezone := Val.none
    uris := Val.none
  }

/-- A profile with a truthy location field. -/
def fBusy : FlatFields :=
  { usernames := []
    access_provider := Val.none
    hris := Val.none
    ldap := Val.none
    mozilliansorg := Val.none
    alternative_name := Val.none
    description := Val.none
    bugzilla_mozilla_org_id := Val.none
    bugzilla_mozilla_org_primary_email := Val.none
    custom_1_primary_email := Val.none
    custom_2_primary_email := Val.none
    custom_3_primary_email := Val.none
    mozilla_ldap_id := Val.none
    mozilla_ldap_primary_email := Val.none
    mozilla_posix_id := Val.none
    mozilliansorg_id := Val.none
    languages := Val.none
    location := Val.str "Berlin"
    pgp_public_keys := Val.none
    phone_numbers := Val.none
    picture := Val.none
    pronouns := Val.none
    cost_center := Val.none
    director := Val.none
    manager := Val.none
    office_location := Val.none
    staff := Val.none
    team := Val.none
    title := Val.none
    worker_type := Val.none
    wpr_desk_number := Val.none
    ssh_public_keys := Val.none
    tags := Val.none
    timezone := Val.none
    uris := Val.none
  }

/-- C10: `is_empty` ignores `usernames` entries whose key starts with
`"HACK#"`: it reports the profile deletable exactly when every other
listed field is falsy and the usernames mapping has no other member; in
particular a profile whose only non-empty listed field is an
all-`HACK#` usernames mapping is still empty, while any other truthy
listed field makes it non-empty. -/
theorem is_empty_hack_usernames (f : FlatFields) :
    Profile.is_empty (buildProfile f) = Except.ok (deletableSpec f) ∧
    (othersTruthy f = false →
      (∀ u ∈ f.usernames, strStartsWith u "HACK#" = true) →
      Profile.is_empty (buildProfile f) = Except.ok true) ∧
    (othersTruthy f = true →
      Profile.is_empty (buildProfile f) = Except.ok false) := by
  have hmain : Profile.is_empty (buildProfile f) = Except.ok (deletableSpec f) := by
    rw [is_empty_eval]
    congr 1
    unfold deletableSpec othersTruthy
    rw [Bool.not_or, Bool.not_not]
  refine ⟨hmain, ?_, ?_⟩
  · intro hot hus
    rw [hmain]
    congr 1
    rw [deletableSpec, hot]
    have hf : f.usernames.filter (fun u => !strStartsWith u "HACK#") = [] := by
      rw [List.filter_eq_nil_iff]
      intro u hu
      rw [hus u hu]
      simp
    rw [hf]
    rfl
  · intro hot
    rw [hmain]
    congr 1
    rw [deletableSpec, hot]
    rfl

/-- Concrete instances of `is_empty_hack_usernames`: only `HACK#`
usernames — deletable; one truthy other field — not deletable. -/
theorem is_empty_hack_usernames_witness :
    Profile.is_empty (buildProfile fHack) = Except.ok true ∧
    Profile.is_empty (buildProfile fBusy) = Except.ok false :=
  ⟨(is_empty_hack_usernames fHack).2.1 (by rfl) (by decide),
   (is_empty_hack_usernames fBusy).2.2 (by rfl)⟩

def RTList.append : RTList → RTList → RTList
  | RTList.nil, ys => ys
  | RTList.cons k v rest, ys => RTList.cons k v (RTList.append rest ys)

theorem RTList.set_nil (k : String) (v : RT) :
    RTList.nil.set k v = RTList.cons k v RTList.nil := rfl

theorem RTList.set_cons (k2 : String) (v2 : RT) (rest : RTList) (k : String) (v : RT) :
    (RTList.cons k2 v2 rest).set k v =
      if k2 == k then RTList.cons k2 v rest
      else RTList.cons k2 v2 (rest.set k v) := rfl

theorem RTList.lookup_nil (k : String) :
    RTList.nil.lookup k = Option.none := rfl

theorem RTList.lookup_cons (k2 : String) (v2 : RT) (rest : RTList) (k : String) :
    (RTList.cons k2 v2 rest).lookup k =
      if k2 == k then Option.some v2 else rest.lookup k := rfl

theorem RTList.append_nil : ∀ xs : RTList, xs.append RTList.nil = xs
  | RTList.nil => rfl
  | RTList.cons k v rest => by
      show RTList.cons k v (rest.append RTList.nil) = _
      rw [RTList.append_nil rest]
termination_by structural xs => xs

theorem RTList.append_assoc : ∀ xs ys zs : RTList,
    (xs.append ys).append zs = xs.append (ys.append zs)
  | RTList.nil, _, _ => rfl
  | RTList.cons k v rest, ys, zs => by
      show RTList.cons k v ((rest.append ys).append zs) = _
      rw [RTList.append_assoc rest ys zs]
      rfl
termination_by structural xs => xs

theorem RTList.lookup_set_self : ∀ (xs : RTList) (k : String) (v : RT),
    (xs.set k v).lookup k = Option.some v
  | RTList.nil, k, v => by
      rw [RTList.set_nil, RTList.lookup_cons, beq_self_eq_true, if_pos rfl]
  | RTList.cons k2 v2 rest, k, v => by
      rw [RTList.set_cons]
      cases hk : k2 == k with
      | true =>
          rw [if_pos rfl, RTList.lookup_cons, hk, if_pos rfl]
      | false =>
          rw [if_neg Bool.false_ne_true, RTList.lookup_cons, hk,
              if_neg Bool.false_ne_true]
          exact RTList.lookup_set_self rest k v
termination_by structural xs => xs

theorem RTList.lookup_set_ne : ∀ (xs : RTList) (k k2 : String) (v : RT),
    (k == k2) = false → (xs.set k v).lookup k2 = xs.lookup k2
  | RTList.nil, k, k2, v, h => by
      rw [RTList.set_nil, RTList.lookup_cons, h, if_neg Bool.false_ne_true,
          RTList.lookup_nil]
  | RTList.cons k3 v3 rest, k, k2, v, h => by
      rw [RTList.set_cons]
      cases hk : k3 == k with
      | true =>
          have h3 : k3 = k := eq_of_beq hk
          subst h3
          rw [if_pos rfl, RTList.lookup_cons, h, if_neg Bool.false_ne_true,
              RTList.lookup_cons, h, if_neg Bool.false_ne_true]
      | false =>
          rw [if_neg Bool.false_ne_true, RTList.lookup_cons]
          cases hk2 : k3 == k2 with
          | true =>
              rw [if_pos rfl, RTList.lookup_cons, hk2, if_pos rfl]
          | false =>
              rw [if_neg Bool.false_ne_true, RTList.lookup_cons, hk2,
                  if_neg Bool.false_ne_true]
              exact RTList.lookup_set_ne rest k k2 v h
termination_by structural xs => xs

theorem RTList.set_fresh_append : ∀ (xs : RTList) (k : String) (v : RT),
    xs.lookup k = Option.none →
    xs.set k v = xs.append (RTList.cons k v RTList.nil)
  | RTList.nil, k, v, _ => rfl
  | RTList.cons k2 v2 rest, k, v, h => by
      rw [RTList.lookup_cons] at h
      cases hk : k2 == k with
      | true =>
          rw [hk, if_pos rfl] at h
          exact Option.noConfusion h
      | false =>
          rw [hk, if_neg Bool.false_ne_true] at h
          rw [RTList.set_cons, hk, if_neg Bool.false_ne_true]
          show RTList.cons k2 v2 (rest.set k v) = RTList.cons k2 v2 _
          rw [RTList.set_fresh_append rest k v h]
termination_by structural xs => xs

theorem RTList.set_set_self : ∀ (xs : RTList) (k : String) (v w : RT),
    (xs.set k v).set k w = xs.set k w
  | RTList.nil, k, v, w => by
      rw [RTList.set_nil, RTList.set_cons, beq_self_eq_true, if_pos rfl,
          RTList.set_nil]
  | RTList.cons k2 v2 rest, k, v, w => by
      rw [RTList.set_cons]
      cases hk : k2 == k with
      | true =>
          rw [if_pos rfl, RTList.set_cons, hk, if_pos rfl, RTList.set_cons, hk,
              if_pos rfl]
      | false =>
          rw [if_neg Bool.false_ne_true, RTList.set_cons, hk,
              if_neg Bool.false_ne_true, RTList.set_cons, hk,
              if_neg Bool.false_ne_true, RTList.set_set_self rest k v w]
termination_by structural xs => xs

theorem RTList.lookup_append : ∀ (xs ys : RTList) (k : String),
    (xs.append ys).lookup k =
      (match xs.lookup k with
       | Option.some v => Option.some v
       | Option.none => ys.lookup k)
  | RTList.nil, ys, k => rfl
  | RTList.cons k2 v2 rest, ys, k => by
      show RTList.lookup (RTList.cons k2 v2 (rest.append ys)) k = _
      rw [RTList.lookup_cons, RTList.lookup_cons]
      cases hk : k2 == k with
      | true => rw [if_pos rfl, if_pos rfl]
      | false =>
          rw [if_neg Bool.false_ne_true, if_neg Bool.false_ne_true]
          exact RTList.lookup_append rest ys k
termination_by structural xs => xs

mutual
/-- How `Profile.__init__`'s first walk turns one retrieved-document
entry into a raw-tree entry: unsigned strings are copied, wire dicts
carrying `value`/`values` become `SignableAttribute`s named after their
key, and plain containers become `ProfileDict`s, recursively. -/
def profOfE (k : String) : RT → RT
  | RT.wireAttr a => RT.sattr a k
  | RT.pdict es => RT.profDict (profOf es)
  | x => x
termination_by structural v => v

def profOf : RTList → RTList
  | RTList.nil => RTList.nil
  | RTList.cons k v rest => RTList.cons k (profOfE k v) (profOf rest)
termination_by structural es => es
end

mutual
/-- How the second walk turns one raw-tree entry into a flat-view
entry: attributes expose their current value, `ProfileDict`s become
plain dicts, strings are copied. -/
def flatOfE : RT → RT
  | RT.sattr a _ => RT.val a.val
  | RT.profDict es => RT.pdict (flatOf es)
  | x => x
termination_by structural v => v

def flatOf : RTList → RTList
  | RTList.nil => RTList.nil
  | RTList.cons k v rest => RTList.cons k (flatOfE v) (flatOf rest)
termination_by structural es => es
end

mutual
/-- Shape of a well-formed retrieved document: unsigned strings, wire
attribute dicts, and nested plain containers with unique keys, no
`value`/`values` members, and absent-or-null `metadata`/`signature`
members. -/
def wireConfE : RT → Bool
  | RT.val (Val.str _) => true
  | RT.wireAttr _ => true
  | RT.pdict es =>
      !es.hasKey "value" && !es.hasKey "values" &&
      es.getIsNone "metadata" && es.getIsNone "signature" && wireConf es
  | _ => false
termination_by structural v => v

def wireConf : RTList → Bool
  | RTList.nil => true
  | RTList.cons k v rest => !rest.hasKey k && wireConfE v && wireConf rest
termination_by structural es => es
end

mutual
/-- Shape of a raw working tree: unsigned strings,
`SignableAttribute`s, and nested `ProfileDict`s, with unique keys. -/
def isRawE : RT → Bool
  | RT.val (Val.str _) => true
  | RT.sattr _ _ => true
  | RT.profDict es => isRaw es
  | _ => false
termination_by structural v => v

def isRaw : RTList → Bool
  | RTList.nil => true
  | RTList.cons k v rest => !rest.hasKey k && isRawE v && isRaw rest
termination_by structural es => es
end

theorem lookup_profOf : ∀ (es : RTList) (k : String),
    (profOf es).lookup k = (es.lookup k).map (profOfE k)
  | RTList.nil, k => rfl
  | RTList.cons k2 v rest, k => by
      show RTList.lookup (RTList.cons k2 (profOfE k2 v) (profOf rest)) k = _
      rw [RTList.lookup_cons, RTList.lookup_cons]
      cases hk : k2 == k with
      | true =>
          have h2 : k2 = k := eq_of_beq hk
          subst h2
          rw [if_pos rfl, if_pos rfl]
          rfl
      | false =>
          rw [if_neg Bool.false_ne_true, if_neg Bool.false_ne_true]
          exact lookup_profOf rest k
termination_by structural es => es

theorem lookup_flatOf : ∀ (es : RTList) (k : String),
    (flatOf es).lookup k = (es.lookup k).map flatOfE
  | RTList.nil, k => rfl
  | RTList.cons k2 v rest, k => by
      show RTList.lookup (RTList.cons k2 (flatOfE v) (flatOf rest)) k = _
      rw [RTList.lookup_cons, RTList.lookup_cons]
      cases hk : k2 == k with
      | true => rw [if_pos rfl, if_pos rfl]; rfl
      | false =>
          rw [if_neg Bool.false_ne_true, if_neg Bool.false_ne_true]
          exact lookup_flatOf rest k
termination_by structural es => es

theorem RTList.hasKey_cons (k : String) (v : RT) (rest : RTList) (k2 : String) :
    (RTList.cons k v rest).hasKey k2 = (k == k2 || rest.hasKey k2) := by
  show ((RTList.cons k v rest).lookup k2).isSome = _
  rw [RTList.lookup_cons]
  cases hk : k == k2 with
  | true => rw [if_pos rfl]; rfl
  | false => rw [if_neg Bool.false_ne_true]; rfl

theorem RTList.hasKey_cons_self (k : String) (v : RT) (rest : RTList) :
    (RTList.cons k v rest).hasKey k = true := by
  rw [RTList.hasKey_cons, beq_self_eq_true]
  rfl

mutual
/-- One step of the raw-to-flat projection: on a raw entry whose key is
fresh in the output, `_walk` appends the flattened entry and emits no
notification. -/
theorem raw_walk_entry (c : Ctx) (k : String) : ∀ (v : RT) (out : RTList),
    isRawE v = true → out.lookup k = Option.none →
    walkEntry c k v false out =
      Except.ok (out.append (RTList.cons k (flatOfE v) RTList.nil), [])
  | RT.val u, out, hr, hl => by
      cases u
      case str s =>
        show Except.ok (out.set k (RT.val (Val.str s)), ([] : List (String × String))) = _
        rw [RTList.set_fresh_append out k (RT.val (Val.str s)) hl]
        rfl
      all_goals exact Bool.noConfusion hr
  | RT.sattr a n, out, hr, hl => by
      show (match out.lookup k with
            | Option.some (RT.sattr _ _) =>
                Except.error (Err.unmodeled "non-value compared against attribute")
            | _ => outSet c false out k (RT.val a.val)) = _
      rw [hl]
      show Except.ok (out.set k (RT.val a.val), ([] : List (String × String))) = _
      rw [RTList.set_fresh_append out k (RT.val a.val) hl]
      rfl
  | RT.profDict es, out, hr, hl => by
      show (match out.lookup k with
            | Option.some (RT.sattr _ _) =>
                Except.error (Err.unmodeled "non-value compared against attribute")
            | _ => do
                let (out1, ns1) ← outSet c false out k (RT.pdict RTList.nil)
                match out1.lookup k with
                | Option.some (RT.pdict fs) => do
                    let (fs', ns2) ← walkList c es false fs
                    Except.ok (out1.set k (RT.pdict fs'), ns1 ++ ns2)
                | _ => Except.error (Err.unmodeled "recursing into a non-dict output")) = _
      rw [hl]
      show (match (out.set k (RT.pdict RTList.nil)).lookup k with
            | Option.some (RT.pdict fs) => do
                let (fs', ns2) ← walkList c es false fs
                Except.ok ((out.set k (RT.pdict RTList.nil)).set k (RT.pdict fs'),
                           ([] : List (String × String)) ++ ns2)
            | _ => Except.error (Err.unmodeled "recursing into a non-dict output")) = _
      rw [RTList.lookup_set_self]
      show (do
            let (fs', ns2) ← walkList c es false RTList.nil
            Except.ok ((out.set k (RT.pdict RTList.nil)).set k (RT.pdict fs'),
                       ([] : List (String × String)) ++ ns2)) = _
      rw [raw_walk_list c es RTList.nil hr (fun _ _ => rfl)]
      show Except.ok ((out.set k (RT.pdict RTList.nil)).set k
              (RT.pdict (RTList.nil.append (flatOf es))),
            ([] : List (String × String)) ++ []) = _
      rw [RTList.set_set_self, RTList.set_fresh_append out k _ hl]
      rfl
  | RT.wireAttr a, out, hr, hl => Bool.noConfusion hr
  | RT.pdict es, out, hr, hl => Bool.noConfusion hr
termination_by structural v => v

/-- The raw-to-flat projection: walking a raw tree into an output with
disjoint keys appends its flattened entries and emits nothing. -/
theorem raw_walk_list (c : Ctx) : ∀ (Q : RTList) (out : RTList),
    isRaw Q = true →
    (∀ k2, Q.hasKey k2 = true → out.lookup k2 = Option.none) →
    walkList c Q false out = Except.ok (out.append (flatOf Q), [])
  | RTList.nil, out, _, _ => by
      show Except.ok (out, ([] : List (String × String))) = _
      rw [show flatOf RTList.nil = RTList.nil from rfl, RTList.append_nil]
  | RTList.cons k v rest, out, hr, hd => by
      rw [show isRaw (RTList.cons k v rest) =
            ((!rest.hasKey k && isRawE v) && isRaw rest) from rfl,
          Bool.and_eq_true, Bool.and_eq_true] at hr
      obtain ⟨⟨hk, hv⟩, hrest⟩ := hr
      have hl : out.lookup k = Option.none :=
        hd k (RTList.hasKey_cons_self k v rest)
      have hd' : ∀ k2, rest.hasKey k2 = true →
          (out.append (RTList.cons k (flatOfE v) RTList.nil)).lookup k2 =
            Option.none := by
        intro k2 h2
        rw [RTList.lookup_append]
        have ho : out.lookup k2 = Option.none := by
          apply hd k2
          rw [RTList.hasKey_cons, h2]
          cases k == k2 <;> rfl
        rw [ho]
        show (RTList.cons k (flatOfE v) RTList.nil).lookup k2 = _
        rw [RTList.lookup_cons]
        have hkk2 : (k == k2) = false := by
          cases hq : k == k2 with
          | false => rfl
          | true =>
              have hkk : k = k2 := eq_of_beq hq
              subst hkk
              rw [h2] at hk
              exact Bool.noConfusion hk
        rw [hkk2, if_neg Bool.false_ne_true, RTList.lookup_nil]
      show (do
          let (out1, ns1) ← walkEntry c k v false out
          let (out2, ns2) ← walkList c rest false out1
          Except.ok (out2, ns1 ++ ns2)) = _
      rw [raw_walk_entry c k v out hv hl]
      show (do
          let (out2, ns2) ← walkList c rest false
            (out.append (RTList.cons k (flatOfE v) RTList.nil))
          Except.ok (out2, ([] : List (String × String)) ++ ns2)) = _
      rw [raw_walk_list c rest (out.append (RTList.cons k (flatOfE v) RTList.nil))
          hrest hd']
      show Except.ok ((out.append (RTList.cons k (flatOfE v) RTList.nil)).append
            (flatOf rest), ([] : List (String × String)) ++ []) = _
      rw [RTList.append_assoc]
      rfl
termination_by structural Q => Q
end

theorem bnotTrue {b : Bool} (h : (!b) = true) : b = false := by
  cases b
  case false => rfl
  case true => exact Bool.noConfusion h

/-- `ProfileDict.__setitem__` on a key absent from the output stores the
value unchanged. -/
theorem profSet_fresh (c : Ctx) (out : RTList) (k : String) (v : RT)
    (hl : out.lookup k = Option.none) :
    profSet c out k v = Except.ok (out.set k v, []) := by
  show (match out.lookup k with
        | Option.some (RT.sattr a n) =>
            match v with
            | RT.val u => do
                let (a', ns) ← setValue a n c u
                Except.ok (out.set k (RT.sattr a' n), ns)
            | _ => Except.error (Err.unmodeled "non-value assigned onto attribute")
        | Option.some (RT.profDict _) => Except.error Err.overwriteProfileDict
        | Option.some _ => Except.ok (out, [])
        | Option.none => Except.ok (out.set k v, [])) = _
  rw [hl]

mutual
/-- One step of the wire-to-raw projection: on a conforming document
entry whose key is fresh in the output, `_walk` appends the raw-tree
entry and emits no notification. -/
theorem wire_walk_entry (c : Ctx) (k : String) : ∀ (v : RT) (out : RTList),
    wireConfE v = true → out.lookup k = Option.none →
    walkEntry c k v true out =
      Except.ok (out.append (RTList.cons k (profOfE k v) RTList.nil), [])
  | RT.val u, out, hv, hl => by
      cases u
      case str s =>
        show profSet c out k (RT.val (Val.str s)) = _
        rw [profSet_fresh c out k (RT.val (Val.str s)) hl,
            RTList.set_fresh_append out k (RT.val (Val.str s)) hl]
        rfl
      all_goals exact Bool.noConfusion hv
  | RT.wireAttr a, out, hv, hl => by
      show (match out.lookup k with
            | Option.some (RT.sattr _ _) =>
                Except.error (Err.unmodeled "non-value compared against attribute")
            | _ => outSet c true out k (RT.sattr a k)) = _
      rw [hl]
      show profSet c out k (RT.sattr a k) = _
      rw [profSet_fresh c out k (RT.sattr a k) hl,
          RTList.set_fresh_append out k (RT.sattr a k) hl]
      rfl
  | RT.pdict es, out, hv, hl => by
      rw [show wireConfE (RT.pdict es) =
            ((((!es.hasKey "value" && !es.hasKey "values") &&
               es.getIsNone "metadata") && es.getIsNone "signature") &&
             wireConf es) from rfl,
          Bool.and_eq_true, Bool.and_eq_true, Bool.and_eq_true,
          Bool.and_eq_true] at hv
      obtain ⟨⟨⟨⟨ha, hb⟩, hc⟩, hd⟩, he⟩ := hv
      show (match out.lookup k with
            | Option.some (RT.sattr _ _) =>
                Except.error (Err.unmodeled "non-value compared against attribute")
            | _ =>
                if es.hasKey "value" || es.hasKey "values" then
                  Except.error (Err.unmodeled "plain dict carrying a value key")
                else if es.getIsNone "metadata" && es.getIsNone "signature" then
                  let out1 := if (out.lookup k).isNone
                              then out.set k (RT.profDict RTList.nil) else out
                  match out1.lookup k with
                  | Option.some (RT.profDict fs) => do
                      let (fs', ns) ← walkList c es true fs
                      Except.ok (out1.set k (RT.profDict fs'), ns)
                  | Option.some (RT.pdict fs) => do
                      let (fs', ns) ← walkList c es false fs
                      Except.ok (out1.set k (RT.pdict fs'), ns)
                  | _ => Except.error (Err.unmodeled "recursing into a non-dict output")
                else Except.error (Err.schemaViolation k)) = _
      rw [hl, bnotTrue ha, bnotTrue hb, hc, hd]
      show (match (out.set k (RT.profDict RTList.nil)).lookup k with
            | Option.some (RT.profDict fs) => do
                let (fs', ns) ← walkList c es true fs
                Except.ok ((out.set k (RT.profDict RTList.nil)).set k
                  (RT.profDict fs'), ns)
            | Option.some (RT.pdict fs) => do
                let (fs', ns) ← walkList c es false fs
                Except.ok ((out.set k (RT.profDict RTList.nil)).set k
                  (RT.pdict fs'), ns)
            | _ => Except.error (Err.unmodeled "recursing into a non-dict output")) = _
      rw [RTList.lookup_set_self]
      show (do
            let (fs', ns) ← walkList c es true RTList.nil
            Except.ok ((out.set k (RT.profDict RTList.nil)).set k
              (RT.profDict fs'), ns)) = _
      rw [wire_walk_list c es RTList.nil he (fun _ _ => rfl)]
      show Except.ok ((out.set k (RT.profDict RTList.nil)).set k
              (RT.profDict (RTList.nil.append (profOf es))),
            ([] : List (String × String))) = _
      rw [RTList.set_set_self, RTList.set_fresh_append out k _ hl]
      rfl
  | RT.sattr a n, out, hv, hl => Bool.noConfusion hv
  | RT.profDict es, out, hv, hl => Bool.noConfusion hv
termination_by structural v => v

/-- The wire-to-raw projection: walking a conforming retrieved document
into an output with disjoint keys appends its raw-tree entries and
emits nothing. -/
theorem wire_walk_list (c : Ctx) : ∀ (W : RTList) (out : RTList),
    wireConf W = true →
    (∀ k2, W.hasKey k2 = true → out.lookup k2 = Option.none) →
    walkList c W true out = Except.ok (out.append (profOf W), [])
  | RTList.nil, out, _, _ => by
      show Except.ok (out, ([] : List (String × String))) = _
      rw [show profOf RTList.nil = RTList.nil from rfl, RTList.append_nil]
  | RTList.cons k v rest, out, hw, hd => by
      rw [show wireConf (RTList.cons k v rest) =
            ((!rest.hasKey k && wireConfE v) && wireConf rest) from rfl,
          Bool.and_eq_true, Bool.and_eq_true] at hw
      obtain ⟨⟨hk, hv⟩, hrest⟩ := hw
      have hl : out.lookup k = Option.none :=
        hd k (RTList.hasKey_cons_self k v rest)
      have hd' : ∀ k2, rest.hasKey k2 = true →
          (out.append (RTList.cons k (profOfE k v) RTList.nil)).lookup k2 =
            Option.none := by
        intro k2 h2
        rw [RTList.lookup_append]
        have ho : out.lookup k2 = Option.none := by
          apply hd k2
          rw [RTList.hasKey_cons, h2]
          cases k == k2 <;> rfl
        rw [ho]
        show (RTList.cons k (profOfE k v) RTList.nil).lookup k2 = _
        rw [RTList.lookup_cons]
        have hkk2 : (k == k2) = false := by
          cases hq : k == k2 with
          | false => rfl
          | true =>
              have hkk : k = k2 := eq_of_beq hq
              subst hkk
              rw [h2] at hk
              exact Bool.noConfusion hk
        rw [hkk2, if_neg Bool.false_ne_true, RTList.lookup_nil]
      show (do
          let (out1, ns1) ← walkEntry c k v true out
          let (out2, ns2) ← walkList c rest true out1
          Except.ok (out2, ns1 ++ ns2)) = _
      rw [wire_walk_entry c k v out hv hl]
      show (do
          let (out2, ns2) ← walkList c rest true
            (out.append (RTList.cons k (profOfE k v) RTList.nil))
          Except.ok (out2, ([] : List (String × String)) ++ ns2)) = _
      rw [wire_walk_list c rest (out.append (RTList.cons k (profOfE k v) RTList.nil))
          hrest hd']
      show Except.ok ((out.append (RTList.cons k (profOfE k v) RTList.nil)).append
            (profOf rest), ([] : List (String × String)) ++ []) = _
      rw [RTList.append_assoc]
      rfl
termination_by structural W => W
end

/-- A bind cannot produce an error that neither side can produce. -/
theorem exbind_ne {α β : Type} (m : Except Err α) (f : α → Except Err β) (e : Err)
    (h1 : m ≠ Except.error e) (h2 : ∀ x, f x ≠ Except.error e) :
    (m >>= f) ≠ Except.error e := by
  cases m with
  | error e2 =>
      intro hc
      replace hc : (Except.error e2 : Except Err β) = Except.error e := hc
      exact h1 (by rw [Except.error.inj hc])
  | ok x => exact h2 x

/-- `SignableAttribute.__setattr__` never raises `InactiveStateError`:
its only raises are the `KeyError`, `SigningConfigError` and
`SigningKeyError` of lines 298, 319 and 321. -/
theorem setValue_no_inactive (a : AttrData) (n : String) (c : Ctx) (v0 : Val) :
    setValue a n c v0 ≠ Except.error Err.inactiveProfile := by
  intro h
  unfold setValue at h
  split at h
  · exact Except.noConfusion h
  · split at h
    · exact Except.noConfusion h
    · split at h
      · exact Err.noConfusion (Except.error.inj h)
      · split at h
        · exact Err.noConfusion (Except.error.inj h)
        · split at h
          · exact Err.noConfusion (Except.error.inj h)
          · exact Except.noConfusion h

/-- `ProfileDict.__setitem__` never raises `InactiveStateError`. -/
theorem profSet_no_inactive (c : Ctx) (out : RTList) (k : String) (v : RT) :
    profSet c out k v ≠ Except.error Err.inactiveProfile := by
  intro h
  unfold profSet at h
  split at h
  · split at h
    · exact exbind_ne _ _ _ (setValue_no_inactive _ _ _ _)
        (fun x => by obtain ⟨a1, ns⟩ := x; exact fun hc => Except.noConfusion hc) h
    · exact Err.noConfusion (Except.error.inj h)
  · exact Err.noConfusion (Except.error.inj h)
  · exact Except.noConfusion h
  · exact Except.noConfusion h

theorem outSet_no_inactive (c : Ctx) (isProf : Bool) (out : RTList) (k : String)
    (v : RT) : outSet c isProf out k v ≠ Except.error Err.inactiveProfile := by
  cases isProf with
  | true => exact profSet_no_inactive c out k v
  | false => exact fun h => Except.noConfusion h

/-- Iterating the members of a semantic set never raises
`InactiveStateError`. -/
theorem walkNoneEntries_no_inactive (c : Ctx) : ∀ (ms : List String) (out : RTList),
    walkNoneEntries c ms out ≠ Except.error Err.inactiveProfile
  | [], _ => fun h => Except.noConfusion h
  | m :: ms, out => by
      intro h
      replace h : (match out.lookup m with
        | Option.some (RT.sattr a n) =>
            if pyEq a.val Val.none then walkNoneEntries c ms out
            else do
              let (a1, ns) ← setValue a n c Val.none
              let (out2, ns2) ← walkNoneEntries c ms (out.set m (RT.sattr a1 n))
              Except.ok (out2, ns ++ ns2)
        | _ => Except.error (Err.schemaViolation m)) =
          Except.error Err.inactiveProfile := h
      split at h
      · split at h
        · exact walkNoneEntries_no_inactive c ms out h
        · exact exbind_ne _ _ _ (setValue_no_inactive _ _ _ _)
            (fun x => by
              obtain ⟨a1, ns⟩ := x
              exact exbind_ne _ _ _ (walkNoneEntries_no_inactive c ms _)
                (fun y => by obtain ⟨o2, n2⟩ := y
                             exact fun hc => Except.noConfusion hc)) h
      · exact Err.noConfusion (Except.error.inj h)
termination_by structural ms => ms

mutual
/-- One `Profile._walk` loop step never raises `InactiveStateError`:
the gate of line 92 is outside `_walk` and runs only at construction. -/
theorem walkEntry_no_inactive (c : Ctx) (k : String) :
    ∀ (v : RT) (isProf : Bool) (out : RTList),
    walkEntry c k v isProf out ≠ Except.error Err.inactiveProfile
  | RT.val u, isProf, out => by
      cases u
      case str s => exact outSet_no_inactive c isProf out k (RT.val (Val.str s))
      case setDict ks =>
        intro h
        replace h : (match out.lookup k with
          | Option.some (RT.sattr a n) =>
              if pyEq a.val (Val.setDict ks) then Except.ok (out, [])
              else do
                let (a1, ns) ← setValue a n c (Val.setDict ks)
                Except.ok (out.set k (RT.sattr a1 n), ns)
          | _ =>
              if ks.contains "value" || ks.contains "values" then
                Except.error (Err.unmodeled "set-dict carrying a value member")
              else
                match (if (out.lookup k).isNone
                       then out.set k (RT.profDict RTList.nil) else out).lookup k with
                | Option.some (RT.profDict fs) => do
                    let (fs1, ns) ← walkNoneEntries c ks fs
                    Except.ok ((if (out.lookup k).isNone
                                then out.set k (RT.profDict RTList.nil)
                                else out).set k (RT.profDict fs1), ns)
                | Option.some (RT.pdict fs) => do
                    let (fs1, ns) ← walkNoneEntries c ks fs
                    Except.ok ((if (out.lookup k).isNone
                                then out.set k (RT.profDict RTList.nil)
                                else out).set k (RT.pdict fs1), ns)
                | _ => Except.error (Err.unmodeled "recursing into a non-dict output")) =
            Except.error Err.inactiveProfile := h
        split at h
        · split at h
          · exact Except.noConfusion h
          · exact exbind_ne _ _ _ (setValue_no_inactive _ _ _ _)
              (fun x => by obtain ⟨a1, ns⟩ := x
                           exact fun hc => Except.noConfusion hc) h
        · split at h
          · exact Err.noConfusion (Except.error.inj h)
          · split at h
            · exact exbind_ne _ _ _ (walkNoneEntries_no_inactive c ks _)
                (fun x => by obtain ⟨f1, ns⟩ := x
                             exact fun hc => Except.noConfusion hc) h
            · exact exbind_ne _ _ _ (walkNoneEntries_no_inactive c ks _)
                (fun x => by obtain ⟨f1, ns⟩ := x
                             exact fun hc => Except.noConfusion hc) h
            · exact Err.noConfusion (Except.error.inj h)
      case none =>
        intro h
        replace h : (match out.lookup k with
          | Option.some (RT.sattr a n) =>
              if pyEq a.val Val.none then Except.ok (out, [])
              else do
                let (a1, ns) ← setValue a n c Val.none
                Except.ok (out.set k (RT.sattr a1 n), ns)
          | _ => Except.error (Err.schemaViolation k)) =
            Except.error Err.inactiveProfile := h
        split at h
        · split at h
          · exact Except.noConfusion h
          · exact exbind_ne _ _ _ (setValue_no_inactive _ _ _ _)
              (fun x => by obtain ⟨a1, ns⟩ := x
                           exact fun hc => Except.noConfusion hc) h
        · exact Err.noConfusion (Except.error.inj h)
      case bool b =>
        intro h
        replace h : (match out.lookup k with
          | Option.some (RT.sattr a n) =>
              if pyEq a.val (Val.bool b) then Except.ok (out, [])
              else do
                let (a1, ns) ← setValue a n c (Val.bool b)
                Except.ok (out.set k (RT.sattr a1 n), ns)
          | _ => Except.error (Err.schemaViolation k)) =
            Except.error Err.inactiveProfile := h
        split at h
        · split at h
          · exact Except.noConfusion h
          · exact exbind_ne _ _ _ (setValue_no_inactive _ _ _ _)
              (fun x => by obtain ⟨a1, ns⟩ := x
                           exact fun hc => Except.noConfusion hc) h
        · exact Err.noConfusion (Except.error.inj h)
      case int n0 =>
        intro h
        replace h : (match out.lookup k with
          | Option.some (RT.sattr a n) =>
              if pyEq a.val (Val.int n0) then Except.ok (out, [])
              else do
                let (a1, ns) ← setValue a n c (Val.int n0)
                Except.ok (out.set k (RT.sattr a1 n), ns)
          | _ => Except.error (Err.schemaViolation k)) =
            Except.error Err.inactiveProfile := h
        split at h
        · split at h
          · exact Except.noConfusion h
          · exact exbind_ne _ _ _ (setValue_no_inactive _ _ _ _)
              (fun x => by obtain ⟨a1, ns⟩ := x
                           exact fun hc => Except.noConfusion hc) h
        · exact Err.noConfusion (Except.error.inj h)
      case list xs =>
        intro h
        replace h : (match out.lookup k with
          | Option.some (RT.sattr a n) =>
              if pyEq a.val (Val.list xs) then Except.ok (out, [])
              else do
                let (a1, ns) ← setValue a n c (Val.list xs)
                Except.ok (out.set k (RT.sattr a1 n), ns)
          | _ => Except.error (Err.schemaViolation k)) =
            Except.error Err.inactiveProfile := h
        split at h
        · split at h
          · exact Except.noConfusion h
          · exact exbind_ne _ _ _ (setValue_no_inactive _ _ _ _)
              (fun x => by obtain ⟨a1, ns⟩ := x
                           exact fun hc => Except.noConfusion hc) h
        · exact Err.noConfusion (Except.error.inj h)
  | RT.sattr a n0, isProf, out => by
      intro h
      replace h : (match out.lookup k with
        | Option.some (RT.sattr _ _) =>
            Except.error (Err.unmodeled "non-value compared against attribute")
        | _ => outSet c isProf out k (RT.val a.val)) =
          Except.error Err.inactiveProfile := h
      split at h
      · exact Err.noConfusion (Except.error.inj h)
      · exact outSet_no_inactive c isProf out k (RT.val a.val) h
  | RT.wireAttr a, isProf, out => by
      intro h
      replace h : (match out.lookup k with
        | Option.some (RT.sattr _ _) =>
            Except.error (Err.unmodeled "non-value compared against attribute")
        | _ => outSet c isProf out k (RT.sattr a k)) =
          Except.error Err.inactiveProfile := h
      split at h
      · exact Err.noConfusion (Except.error.inj h)
      · exact outSet_no_inactive c isProf out k (RT.sattr a k) h
  | RT.pdict es, isProf, out => by
      intro h
      replace h : (match out.lookup k with
        | Option.some (RT.sattr _ _) =>
            Except.error (Err.unmodeled "non-value compared against attribute")
        | _ =>
            if es.hasKey "value" || es.hasKey "values" then
              Except.error (Err.unmodeled "plain dict carrying a value key")
            else if es.getIsNone "metadata" && es.getIsNone "signature" then
              match (if (out.lookup k).isNone
                     then out.set k (RT.profDict RTList.nil) else out).lookup k with
              | Option.some (RT.profDict fs) => do
                  let (fs1, ns) ← walkList c es true fs
                  Except.ok ((if (out.lookup k).isNone
                              then out.set k (RT.profDict RTList.nil)
                              else out).set k (RT.profDict fs1), ns)
              | Option.some (RT.pdict fs) => do
                  let (fs1, ns) ← walkList c es false fs
                  Except.ok ((if (out.lookup k).isNone
                              then out.set k (RT.profDict RTList.nil)
                              else out).set k (RT.pdict fs1), ns)
              | _ => Except.error (Err.unmodeled "recursing into a non-dict output")
            else Except.error (Err.schemaViolation k)) =
          Except.error Err.inactiveProfile := h
      split at h
      · exact Err.noConfusion (Except.error.inj h)
      · split at h
        · exact Err.noConfusion (Except.error.inj h)
        · split at h
          · split at h
            · exact exbind_ne _ _ _ (walkList_no_inactive c es true _)
                (fun x => by obtain ⟨f1, ns⟩ := x
                             exact fun hc => Except.noConfusion hc) h
            · exact exbind_ne _ _ _ (walkList_no_inactive c es false _)
                (fun x => by obtain ⟨f1, ns⟩ := x
                             exact fun hc => Except.noConfusion hc) h
            · exact Err.noConfusion (Except.error.inj h)
          · exact Err.noConfusion (Except.error.inj h)
  | RT.profDict es, isProf, out => by
      intro h
      replace h : (match out.lookup k with
        | Option.some (RT.sattr _ _) =>
            Except.error (Err.unmodeled "non-value compared against attribute")
        | _ => do
            let (out1, ns1) ← outSet c isProf out k (RT.pdict RTList.nil)
            match out1.lookup k with
            | Option.some (RT.pdict fs) => do
                let (fs1, ns2) ← walkList c es false fs
                Except.ok (out1.set k (RT.pdict fs1), ns1 ++ ns2)
            | _ => Except.error (Err.unmodeled "recursing into a non-dict output")) =
          Except.error Err.inactiveProfile := h
      split at h
      · exact Err.noConfusion (Except.error.inj h)
      · refine exbind_ne _ _ _ (outSet_no_inactive c isProf out k (RT.pdict RTList.nil))
          (fun x => ?_) h
        obtain ⟨out1, ns1⟩ := x
        intro hc
        replace hc : (match out1.lookup k with
          | Option.some (RT.pdict fs) => do
              let (fs1, ns2) ← walkList c es false fs
              Except.ok (out1.set k (RT.pdict fs1), ns1 ++ ns2)
          | _ => Except.error (Err.unmodeled "recursing into a non-dict output")) =
            Except.error Err.inactiveProfile := hc
        cases hq : out1.lookup k with
        | none =>
            rw [hq] at hc
            exact Err.noConfusion (Except.error.inj hc)
        | some w =>
            rw [hq] at hc
            cases w with
            | pdict fs =>
                refine exbind_ne _ _ _ (walkList_no_inactive c es false fs)
                  (fun y => ?_) hc
                obtain ⟨f1, n2⟩ := y
                exact fun hd => Except.noConfusion hd
            | val u => exact Err.noConfusion (Except.error.inj hc)
            | wireAttr a2 => exact Err.noConfusion (Except.error.inj hc)
            | sattr a2 n2 => exact Err.noConfusion (Except.error.inj hc)
            | profDict fs => exact Err.noConfusion (Except.error.inj hc)
termination_by structural v => v

/-- `Profile._walk` never raises `InactiveStateError`. -/
theorem walkList_no_inactive (c : Ctx) :
    ∀ (inp : RTList) (isProf : Bool) (out : RTList),
    walkList c inp isProf out ≠ Except.error Err.inactiveProfile
  | RTList.nil, _, _ => fun h => Except.noConfusion h
  | RTList.cons k v rest, isProf, out => by
      intro h
      replace h : (do
          let (out1, ns1) ← walkEntry c k v isProf out
          let (out2, ns2) ← walkList c rest isProf out1
          Except.ok (out2, ns1 ++ ns2)) = Except.error Err.inactiveProfile := h
      exact exbind_ne _ _ _ (walkEntry_no_inactive c k v isProf out)
        (fun x => by
          obtain ⟨out1, ns1⟩ := x
          exact exbind_ne _ _ _ (walkList_no_inactive c rest isProf out1)
            (fun y => by obtain ⟨o2, n2⟩ := y
                         exact fun hc => Except.noConfusion hc)) h
termination_by structural inp => inp
end

theorem profOf_hasKey (es : RTList) (k : String) :
    (profOf es).hasKey k = es.hasKey k := by
  show ((profOf es).lookup k).isSome = (es.lookup k).isSome
  rw [lookup_profOf]
  cases es.lookup k <;> rfl

mutual
/-- The first walk of `Profile.__init__` sends conforming document
nodes to well-shaped raw-tree nodes. -/
theorem profOfE_isRawE (k : String) : ∀ (v : RT), wireConfE v = true →
    isRawE (profOfE k v) = true
  | RT.val u, hv => by
      cases u
      case str s => rfl
      all_goals exact Bool.noConfusion hv
  | RT.wireAttr a, _ => rfl
  | RT.pdict es, hv => by
      rw [show wireConfE (RT.pdict es) =
            ((((!es.hasKey "value" && !es.hasKey "values") &&
               es.getIsNone "metadata") && es.getIsNone "signature") &&
             wireConf es) from rfl,
          Bool.and_eq_true, Bool.and_eq_true, Bool.and_eq_true,
          Bool.and_eq_true] at hv
      show isRaw (profOf es) = true
      exact profOf_isRaw es hv.2
  | RT.sattr a n, hv => Bool.noConfusion hv
  | RT.profDict es, hv => Bool.noConfusion hv
termination_by structural v => v

theorem profOf_isRaw : ∀ (es : RTList), wireConf es = true →
    isRaw (profOf es) = true
  | RTList.nil, _ => rfl
  | RTList.cons k v rest, hw => by
      rw [show wireConf (RTList.cons k v rest) =
            ((!rest.hasKey k && wireConfE v) && wireConf rest) from rfl,
          Bool.and_eq_true, Bool.and_eq_true] at hw
      obtain ⟨⟨hk, hv⟩, hrest⟩ := hw
      show ((!(profOf rest).hasKey k && isRawE (profOfE k v)) &&
            isRaw (profOf rest)) = true
      rw [profOf_hasKey, bnotTrue hk, profOfE_isRawE k v hv,
          profOf_isRaw rest hrest]
      rfl
termination_by structural es => es
end

/-- The display level `Profile.sign` stores into the process global:
the explicit argument when given, the previous global otherwise. -/
def signGlobal (c : Ctx) (dl : Option String) : Option String :=
  match dl with
  | Option.some d => Option.some d
  | Option.none => c.displayLevel

theorem sign_eq (c : Ctx) (p : Profile) (dl : Option String) :
    Profile.sign c p dl =
      (walkList { c with displayLevel := signGlobal c dl }
          p.data true p.profile).map
        (fun r : RTList × List (String × String) =>
          ({ p with profile := r.1
                    notifications := p.notifications ++ r.2 },
           signGlobal c dl)) := rfl

/-- `Profile.sign` never raises `InactiveStateError`: it only re-walks
the flat view into the raw tree. -/
theorem sign_no_inactive (c : Ctx) (p : Profile) (dl : Option String) :
    Profile.sign c p dl ≠ Except.error Err.inactiveProfile := by
  intro h
  rw [sign_eq] at h
  cases hwv : walkList { c with displayLevel := signGlobal c dl }
      p.data true p.profile with
  | ok r => rw [hwv] at h; exact Except.noConfusion h
  | error e =>
      rw [hwv] at h
      replace h : (Except.error e : Except Err (Profile × Option String)) =
        Except.error Err.inactiveProfile := h
      exact walkList_no_inactive _ p.data true p.profile
        (hwv.trans (by rw [Except.error.inj h]))

/-- On a conforming retrieved document, `Profile.__init__` builds the
raw tree `profOf W` and the flat view `flatOf (profOf W)`, and then the
result is decided entirely by the inactive gate of lines 91-93. -/
theorem init_conf (c : Ctx) (W : RTList) (ai : Bool) (hw : wireConf W = true) :
    Profile.init c W ai =
      (if ai then
        Except.ok { baseKeys := W.keys
                    profile := profOf W
                    data := flatOf (profOf W)
                    notifications := []
                    attrs := RTList.nil }
       else
        match (flatOf (profOf W)).lookup "active" with
        | Option.none => Except.error (Err.keyError "active")
        | Option.some (RT.val (Val.bool false)) => Except.error Err.inactiveProfile
        | Option.some _ =>
            Except.ok { baseKeys := W.keys
                        profile := profOf W
                        data := flatOf (profOf W)
                        notifications := []
                        attrs := RTList.nil }) := by
  unfold Profile.init
  rw [wire_walk_list c W RTList.nil hw (fun _ _ => rfl)]
  show ((do
      let (dat, _) ← walkList c (profOf W) false RTList.nil
      if ai then
        Except.ok { baseKeys := W.keys
                    profile := profOf W
                    data := dat
                    notifications := []
                    attrs := RTList.nil }
      else
        match dat.lookup "active" with
        | Option.none => Except.error (Err.keyError "active")
        | Option.some (RT.val (Val.bool false)) => Except.error Err.inactiveProfile
        | Option.some _ =>
            Except.ok { baseKeys := W.keys
                        profile := profOf W
                        data := dat
                        notifications := []
                        attrs := RTList.nil }) : Except Err Profile) = _
  rw [raw_walk_list c (profOf W) RTList.nil (profOf_isRaw W hw) (fun _ _ => rfl)]
  rfl

/-- C7: constructing a `Profile` over a conforming retrieved document
whose `active` attribute carries the value `False` raises
`InactiveStateError` when `allow_inactive` is false; with
`allow_inactive` true, construction succeeds and the flat view exposes
`active = False`.  The gate is applied only at construction: neither a
leaf write (`SignableAttribute.__setattr__`) nor `Profile.sign` can
ever raise `InactiveStateError`. -/
theorem inactive_gate (c : Ctx) (W : RTList) (a : AttrData)
    (hw : wireConf W = true)
    (hact : W.lookup "active" = Option.some (RT.wireAttr a))
    (hval : a.val = Val.bool false) :
    Profile.init c W false = Except.error Err.inactiveProfile ∧
    (∃ p, Profile.init c W true = Except.ok p ∧
        p.data.lookup "active" = Option.some (RT.val (Val.bool false))) ∧
    (∀ (p : Profile) (dl : Option String),
        Profile.sign c p dl ≠ Except.error Err.inactiveProfile) ∧
    (∀ (a2 : AttrData) (n : String) (v0 : Val),
        setValue a2 n c v0 ≠ Except.error Err.inactiveProfile) := by
  have hda : (flatOf (profOf W)).lookup "active" =
      Option.some (RT.val (Val.bool false)) := by
    rw [lookup_flatOf, lookup_profOf, hact]
    show Option.some (RT.val a.val) = _
    rw [hval]
  refine ⟨?_, ⟨({ baseKeys := W.keys
                  profile := profOf W
                  data := flatOf (profOf W)
                  notifications := []
                  attrs := RTList.nil } : Profile), ?_, ?_⟩,
      fun p dl => sign_no_inactive c p dl,
      fun a2 n v0 => setValue_no_inactive a2 n c v0⟩
  · rw [init_conf c W false hw]
    show (match (flatOf (profOf W)).lookup "active" with
      | Option.none => Except.error (Err.keyError "active")
      | Option.some (RT.val (Val.bool false)) => Except.error Err.inactiveProfile
      | Option.some _ =>
          Except.ok ({ baseKeys := W.keys
                       profile := profOf W
                       data := flatOf (profOf W)
                       notifications := []
                       attrs := RTList.nil } : Profile)) = _
    rw [hda]
  · rw [init_conf c W true hw]
    rfl
  · exact hda

/-- A one-field retrieved document whose `active` attribute is `False`. -/
def wireInactive : RTList :=
  RTList.cons "active" (RT.wireAttr (attrScalar (Val.bool false))) RTList.nil

theorem inactive_gate_witness :
    wireConf wireInactive = true ∧
    Profile.init c0 wireInactive false = Except.error Err.inactiveProfile ∧
    (∃ p, Profile.init c0 wireInactive true = Except.ok p ∧
        p.data.lookup "active" = Option.some (RT.val (Val.bool false))) :=
  ⟨rfl,
   (inactive_gate c0 wireInactive (attrScalar (Val.bool false)) rfl rfl rfl).1,
   (inactive_gate c0 wireInactive (attrScalar (Val.bool false)) rfl rfl rfl).2.1⟩

/-- Whether an embedded value is a Python `str` (the shape `Profile._walk`
dispatches on first, line 127). -/
def isStrV : Val → Bool
  | Val.str _ => true
  | _ => false

/-- The attribute produced by a successful `SignableAttribute.__setattr__`:
unchanged on a no-op, value-only store when the attribute has no
signature slot, full signed rewrite otherwise (the `metadata`-absent
fallback is never reached on a successful write). -/
def writeA (c : Ctx) (a : AttrData) (u : Val) : AttrData :=
  if isNoop a (pyNorm u) then a
  else if a.signature.isNone then { a with val := pyNorm u }
  else
    match a.metadata with
    | Option.some md0 => signedWrite c a md0 u
    | Option.none => a

mutual
/-- One raw-tree entry after `Profile.sign` walks the flat view back
over it: strings stored as plain nodes are kept, attribute leaves are
rewritten by `__setattr__` (guarded by the `!=` test of line 133 for
non-string inputs), nested containers recurse. -/
def postE (c : Ctx) : RT → RT → RT
  | RT.val (Val.str s), RT.sattr a nm => RT.sattr (writeA c a (Val.str s)) nm
  | RT.val (Val.str _), pv => pv
  | RT.val u, RT.sattr a nm =>
      if pyEq a.val u then RT.sattr a nm else RT.sattr (writeA c a u) nm
  | RT.pdict DS, RT.profDict PS => RT.profDict (postL c DS PS)
  | _, pv => pv
termination_by structural dv _ => dv

def postL (c : Ctx) : RTList → RTList → RTList
  | RTList.nil, P => P
  | RTList.cons k dv D, RTList.cons _ pv P =>
      RTList.cons k (postE c dv pv) (postL c D P)
  | RTList.cons _ _ _, RTList.nil => RTList.nil
termination_by structural D _ => D
end

mutual
/-- The flat value the round trip leaves at an attribute slot, in the
claim's terms: the normalized input (`pyNorm`: numeric to string form,
non-empty list to a de-duplicated sorted set-dict) unless the write was
skipped — either by the Python `!=` guard of line 133 comparing the
un-normalized input, or by the no-op test of lines 295-298 — in which
case the previously stored value survives. -/
def rtNormE : RT → RT → RT
  | RT.val (Val.str s), RT.sattr a _ =>
      RT.val (if isNoop a (pyNorm (Val.str s)) then a.val
              else pyNorm (Val.str s))
  | RT.val (Val.str s), _ => RT.val (Val.str s)
  | RT.val u, RT.sattr a _ =>
      RT.val (if pyEq a.val u then a.val
              else if isNoop a (pyNorm u) then a.val else pyNorm u)
  | RT.pdict DS, RT.profDict PS => RT.pdict (rtNorm DS PS)
  | dv, _ => dv
termination_by structural dv _ => dv

def rtNorm : RTList → RTList → RTList
  | RTList.nil, _ => RTList.nil
  | RTList.cons k dv D, RTList.cons _ pv P =>
      RTList.cons k (rtNormE dv pv) (rtNorm D P)
  | RTList.cons _ _ _, RTList.nil => RTList.nil
termination_by structural D _ => D
end

mutual
/-- Alignment of a flat-view entry with the raw-tree entry it was
projected from, as `Profile.sign`'s walk consumes it: plain strings
face the same stored string, attribute-backed leaves face their
`SignableAttribute` (with a write that succeeds), and nested containers
recurse with the container shape required by walk case 5. -/
inductive ConfE (c : Ctx) : RT → RT → Prop where
  | strPlain (s : String) : ConfE c (RT.val (Val.str s)) (RT.val (Val.str s))
  | strAttr (s : String) (a : AttrData) (nm : String) (a1 : AttrData)
      (ns : List (String × String))
      (hsv : setValue a nm c (Val.str s) = Except.ok (a1, ns)) :
      ConfE c (RT.val (Val.str s)) (RT.sattr a nm)
  | leaf (u : Val) (a : AttrData) (nm : String) (a1 : AttrData)
      (ns : List (String × String)) (hstr : isStrV u = false)
      (hsv : setValue a nm c u = Except.ok (a1, ns)) :
      ConfE c (RT.val u) (RT.sattr a nm)
  | nest (DS PS : RTList)
      (h1 : DS.hasKey "value" = false) (h2 : DS.hasKey "values" = false)
      (h3 : DS.getIsNone "metadata" = true)
      (h4 : DS.getIsNone "signature" = true)
      (hC : Conf c DS PS) : ConfE c (RT.pdict DS) (RT.profDict PS)

/-- Alignment of a whole flat view with its raw tree: same keys in the
same order (the flat view is produced by walking the raw tree), each
key appearing once, entries aligned by `ConfE`. -/
inductive Conf (c : Ctx) : RTList → RTList → Prop where
  | nil : Conf c RTList.nil RTList.nil
  | cons (k : String) (dv pv : RT) (D P : RTList)
      (hfresh : D.hasKey k = false)
      (hE : ConfE c dv pv) (hC : Conf c D P) :
      Conf c (RTList.cons k dv D) (RTList.cons k pv P)
end

theorem RTList.set_cons_self (k : String) (pv w : RT) (tail : RTList) :
    (RTList.cons k pv tail).set k w = RTList.cons k w tail := by
  rw [RTList.set_cons, beq_self_eq_true, if_pos rfl]

theorem RTList.set_append_right : ∀ (pre Q : RTList) (k : String) (w : RT),
    pre.lookup k = Option.none →
    (pre.append Q).set k w = pre.append (Q.set k w)
  | RTList.nil, Q, k, w, _ => rfl
  | RTList.cons k2 v2 rest, Q, k, w, h => by
      rw [RTList.lookup_cons] at h
      cases hk : k2 == k with
      | true => rw [hk, if_pos rfl] at h; exact Option.noConfusion h
      | false =>
          rw [hk, if_neg Bool.false_ne_true] at h
          show (RTList.cons k2 v2 (rest.append Q)).set k w =
            RTList.cons k2 v2 (rest.append (Q.set k w))
          rw [RTList.set_cons, hk, if_neg Bool.false_ne_true]
          show RTList.cons k2 v2 ((rest.append Q).set k w) = _
          rw [RTList.set_append_right rest Q k w h]
termination_by structural pre => pre

/-- A successful write is exactly `writeA`. -/
theorem writeA_of_ok (c : Ctx) (a : AttrData) (nm : String) (u : Val)
    (a1 : AttrData) (ns : List (String × String))
    (h : setValue a nm c u = Except.ok (a1, ns)) : a1 = writeA c a u := by
  unfold writeA
  cases hno : isNoop a (pyNorm u) with
  | true =>
      have h2 : Except.ok (a, ([] : List (String × String))) =
          Except.ok (a1, ns) := (setValue_noop a nm c u hno).symm.trans h
      have h3 : a = a1 := congrArg Prod.fst (Except.ok.inj h2)
      rw [← h3]
      rfl
  | false =>
      obtain ⟨au, av, amd, asig⟩ := a
      cases asig with
      | none =>
          have h2 := setValue_nosig_ok ⟨au, av, amd, Option.none⟩ nm c u hno rfl
          exact (congrArg Prod.fst (Except.ok.inj (h2.symm.trans h))).symm
      | some sg =>
          obtain ⟨cn, cdl, chk, cpn⟩ := c
          unfold setValue at h
          rw [if_neg (by rw [hno]; exact Bool.false_ne_true)] at h
          cases amd with
          | none => exact Except.noConfusion h
          | some md0 =>
              obtain ⟨cr, lm, disp⟩ := md0
              rcases disp with _ | d
              · rcases cdl with _ | d2
                · exact Except.noConfusion h
                · rcases chk with _ | _
                  · exact Except.noConfusion h
                  · exact (congrArg Prod.fst (Except.ok.inj h)).symm
              · rcases chk with _ | _
                · exact Except.noConfusion h
                · exact (congrArg Prod.fst (Except.ok.inj h)).symm

/-- The stored value after a successful write: kept on a no-op,
normalized otherwise. -/
theorem val_of_ok (a : AttrData) (nm : String) (c : Ctx) (u : Val)
    (a1 : AttrData) (ns : List (String × String))
    (h : setValue a nm c u = Except.ok (a1, ns)) :
    a1.val = (if isNoop a (pyNorm u) then a.val else pyNorm u) := by
  cases hno : isNoop a (pyNorm u) with
  | true =>
      have h2 : Except.ok (a, ([] : List (String × String))) =
          Except.ok (a1, ns) := (setValue_noop a nm c u hno).symm.trans h
      have h3 : a = a1 := congrArg Prod.fst (Except.ok.inj h2)
      show a1.val = a.val
      rw [← h3]
  | false =>
      show a1.val = pyNorm u
      exact setValue_ok_val a nm c u a1 ns h hno

theorem RTList.lookup_append_head (pre : RTList) (k : String) (pv : RT)
    (tail : RTList) (h : pre.lookup k = Option.none) :
    (pre.append (RTList.cons k pv tail)).lookup k = Option.some pv := by
  rw [RTList.lookup_append, h]
  show (RTList.cons k pv tail).lookup k = _
  rw [RTList.lookup_cons, beq_self_eq_true, if_pos rfl]

theorem RTList.set_append_head (pre : RTList) (k : String) (pv w : RT)
    (tail : RTList) (h : pre.lookup k = Option.none) :
    (pre.append (RTList.cons k pv tail)).set k w =
      pre.append (RTList.cons k w tail) := by
  rw [RTList.set_append_right pre _ k w h, RTList.set_cons_self]

/-- `ProfileDict.__setitem__` on a key holding a plain value: lines
58-60 fall through and store nothing. -/
theorem profSet_found_val (c : Ctx) (out : RTList) (k : String) (v : RT) (u : Val)
    (hl : out.lookup k = Option.some (RT.val u)) :
    profSet c out k v = Except.ok (out, []) := by
  show (match out.lookup k with
        | Option.some (RT.sattr a n) =>
            match v with
            | RT.val u2 => do
                let (a1, ns) ← setValue a n c u2
                Except.ok (out.set k (RT.sattr a1 n), ns)
            | _ => Except.error (Err.unmodeled "non-value assigned onto attribute")
        | Option.some (RT.profDict _) => Except.error Err.overwriteProfileDict
        | Option.some _ => Except.ok (out, [])
        | Option.none => Except.ok (out.set k v, [])) = _
  rw [hl]

/-- `ProfileDict.__setitem__` on a key holding a `SignableAttribute`
routes the value into `SignableAttribute.__setattr__` (lines 52-57). -/
theorem profSet_found_attr (c : Ctx) (out : RTList) (k : String) (u : Val)
    (a : AttrData) (nm : String) (a1 : AttrData) (ns : List (String × String))
    (hl : out.lookup k = Option.some (RT.sattr a nm))
    (hsv : setValue a nm c u = Except.ok (a1, ns)) :
    profSet c out k (RT.val u) = Except.ok (out.set k (RT.sattr a1 nm), ns) := by
  show (match out.lookup k with
        | Option.some (RT.sattr a2 n2) =>
            match (RT.val u : RT) with
            | RT.val u2 => do
                let (a3, ns3) ← setValue a2 n2 c u2
                Except.ok (out.set k (RT.sattr a3 n2), ns3)
            | _ => Except.error (Err.unmodeled "non-value assigned onto attribute")
        | Option.some (RT.profDict _) => Except.error Err.overwriteProfileDict
        | Option.some _ => Except.ok (out, [])
        | Option.none => Except.ok (out.set k (RT.val u), [])) = _
  rw [hl]
  show (do
      let (a3, ns3) ← setValue a nm c u
      Except.ok (out.set k (RT.sattr a3 nm), ns3)) = _
  rw [hsv]
  rfl

theorem walkEntry_val_none (c : Ctx) (k : String) (isProf : Bool) (out : RTList) :
    walkEntry c k (RT.val Val.none) isProf out =
      (match out.lookup k with
       | Option.some (RT.sattr a n) =>
           if pyEq a.val Val.none then Except.ok (out, [])
           else do
             let (a1, ns) ← setValue a n c Val.none
             Except.ok (out.set k (RT.sattr a1 n), ns)
       | _ => Except.error (Err.schemaViolation k)) := rfl

theorem walkEntry_val_bool (c : Ctx) (k : String) (b : Bool) (isProf : Bool)
    (out : RTList) :
    walkEntry c k (RT.val (Val.bool b)) isProf out =
      (match out.lookup k with
       | Option.some (RT.sattr a n) =>
           if pyEq a.val (Val.bool b) then Except.ok (out, [])
           else do
             let (a1, ns) ← setValue a n c (Val.bool b)
             Except.ok (out.set k (RT.sattr a1 n), ns)
       | _ => Except.error (Err.schemaViolation k)) := rfl

theorem walkEntry_val_int (c : Ctx) (k : String) (n0 : Int) (isProf : Bool)
    (out : RTList) :
    walkEntry c k (RT.val (Val.int n0)) isProf out =
      (match out.lookup k with
       | Option.some (RT.sattr a n) =>
           if pyEq a.val (Val.int n0) then Except.ok (out, [])
           else do
             let (a1, ns) ← setValue a n c (Val.int n0)
             Except.ok (out.set k (RT.sattr a1 n), ns)
       | _ => Except.error (Err.schemaViolation k)) := rfl

theorem walkEntry_val_list (c : Ctx) (k : String) (xs : List String)
    (isProf : Bool) (out : RTList) :
    walkEntry c k (RT.val (Val.list xs)) isProf out =
      (match out.lookup k with
       | Option.some (RT.sattr a n) =>
           if pyEq a.val (Val.list xs) then Except.ok (out, [])
           else do
             let (a1, ns) ← setValue a n c (Val.list xs)
             Except.ok (out.set k (RT.sattr a1 n), ns)
       | _ => Except.error (Err.schemaViolation k)) := rfl

theorem walkEntry_val_setDict (c : Ctx) (k : String) (ks : List String)
    (isProf : Bool) (out : RTList) :
    walkEntry c k (RT.val (Val.setDict ks)) isProf out =
      (match out.lookup k with
       | Option.some (RT.sattr a n) =>
           if pyEq a.val (Val.setDict ks) then Except.ok (out, [])
           else do
             let (a1, ns) ← setValue a n c (Val.setDict ks)
             Except.ok (out.set k (RT.sattr a1 n), ns)
       | _ =>
           if ks.contains "value" || ks.contains "values" then
             Except.error (Err.unmodeled "set-dict carrying a value member")
           else
             match (if (out.lookup k).isNone
                    then out.set k (RT.profDict RTList.nil) else out).lookup k with
             | Option.some (RT.profDict fs) => do
                 let (fs1, ns) ← walkNoneEntries c ks fs
                 Except.ok ((if (out.lookup k).isNone
                             then out.set k (RT.profDict RTList.nil)
                             else out).set k (RT.profDict fs1), ns)
             | Option.some (RT.pdict fs) => do
                 let (fs1, ns) ← walkNoneEntries c ks fs
                 Except.ok ((if (out.lookup k).isNone
                             then out.set k (RT.profDict RTList.nil)
                             else out).set k (RT.pdict fs1), ns)
             | _ => Except.error (Err.unmodeled "recursing into a non-dict output")) := rfl

mutual
/-- One step of `Profile.sign`'s walk over an aligned flat/raw entry
pair: the raw slot is rewritten to `postE` and the walk succeeds. -/
theorem conf_walk_entry (c : Ctx) (k : String) :
    ∀ (dv pv : RT), ConfE c dv pv → ∀ (pre tail : RTList),
    pre.lookup k = Option.none →
    ∃ ns, walkEntry c k dv true (pre.append (RTList.cons k pv tail)) =
        Except.ok (pre.append (RTList.cons k (postE c dv pv) tail), ns)
  | _, _, ConfE.strPlain s, pre, tail, hl => by
      refine ⟨[], ?_⟩
      have hlk := RTList.lookup_append_head pre k (RT.val (Val.str s)) tail hl
      show profSet c (pre.append (RTList.cons k (RT.val (Val.str s)) tail)) k
          (RT.val (Val.str s)) = _
      rw [profSet_found_val c _ k (RT.val (Val.str s)) (Val.str s) hlk]
      rfl
  | _, _, ConfE.strAttr s a nm a1 ns hsv, pre, tail, hl => by
      refine ⟨ns, ?_⟩
      have hlk := RTList.lookup_append_head pre k (RT.sattr a nm) tail hl
      show profSet c (pre.append (RTList.cons k (RT.sattr a nm) tail)) k
          (RT.val (Val.str s)) = _
      rw [profSet_found_attr c _ k (Val.str s) a nm a1 ns hlk hsv,
          RTList.set_append_head pre k (RT.sattr a nm) (RT.sattr a1 nm) tail hl,
          writeA_of_ok c a nm (Val.str s) a1 ns hsv]
      rfl
  | _, _, ConfE.leaf u a nm a1 ns hstr hsv, pre, tail, hl => by
      have hlk := RTList.lookup_append_head pre k (RT.sattr a nm) tail hl
      cases u with
      | str s => exact Bool.noConfusion hstr
      | none =>
          cases hpe : pyEq a.val Val.none with
          | true =>
              refine ⟨[], ?_⟩
              rw [walkEntry_val_none c k true
                    (pre.append (RTList.cons k (RT.sattr a nm) tail)), hlk]
              show (if pyEq a.val Val.none then
                      Except.ok (pre.append (RTList.cons k (RT.sattr a nm) tail),
                        ([] : List (String × String)))
                    else do
                      let (a3, ns3) ← setValue a nm c Val.none
                      Except.ok ((pre.append (RTList.cons k (RT.sattr a nm)
                        tail)).set k (RT.sattr a3 nm), ns3)) = _
              rw [hpe]
              have hp : postE c (RT.val Val.none) (RT.sattr a nm) =
                  RT.sattr a nm := by
                show (if pyEq a.val Val.none then RT.sattr a nm
                      else RT.sattr (writeA c a Val.none) nm) = _
                rw [hpe]
                rfl
              rw [hp]
              rfl
          | false =>
              refine ⟨ns, ?_⟩
              rw [walkEntry_val_none c k true
                    (pre.append (RTList.cons k (RT.sattr a nm) tail)), hlk]
              show (if pyEq a.val Val.none then
                      Except.ok (pre.append (RTList.cons k (RT.sattr a nm) tail),
                        ([] : List (String × String)))
                    else do
                      let (a3, ns3) ← setValue a nm c Val.none
                      Except.ok ((pre.append (RTList.cons k (RT.sattr a nm)
                        tail)).set k (RT.sattr a3 nm), ns3)) = _
              rw [hpe]
              show (do
                  let (a3, ns3) ← setValue a nm c Val.none
                  Except.ok ((pre.append (RTList.cons k (RT.sattr a nm)
                    tail)).set k (RT.sattr a3 nm), ns3)) = _
              rw [hsv]
              show Except.ok ((pre.append (RTList.cons k (RT.sattr a nm)
                  tail)).set k (RT.sattr a1 nm), ns) = _
              rw [RTList.set_append_head pre k (RT.sattr a nm) (RT.sattr a1 nm)
                    tail hl]
              have hp : postE c (RT.val Val.none) (RT.sattr a nm) =
                  RT.sattr (writeA c a Val.none) nm := by
                show (if pyEq a.val Val.none then RT.sattr a nm
                      else RT.sattr (writeA c a Val.none) nm) = _
                rw [hpe]
                exact if_neg Bool.false_ne_true
              rw [hp, ← writeA_of_ok c a nm Val.none a1 ns hsv]
      | bool b =>
          cases hpe : pyEq a.val (Val.bool b) with
          | true =>
              refine ⟨[], ?_⟩
              rw [walkEntry_val_bool c k b true
                    (pre.append (RTList.cons k (RT.sattr a nm) tail)), hlk]
              show (if pyEq a.val (Val.bool b) then
                      Except.ok (pre.append (RTList.cons k (RT.sattr a nm) tail),
                        ([] : List (String × String)))
                    else do
                      let (a3, ns3) ← setValue a nm c (Val.bool b)
                      Except.ok ((pre.append (RTList.cons k (RT.sattr a nm)
                        tail)).set k (RT.sattr a3 nm), ns3)) = _
              rw [hpe]
              have hp : postE c (RT.val (Val.bool b)) (RT.sattr a nm) =
                  RT.sattr a nm := by
                show (if pyEq a.val (Val.bool b) then RT.sattr a nm
                      else RT.sattr (writeA c a (Val.bool b)) nm) = _
                rw [hpe]
                rfl
              rw [hp]
              rfl
          | false =>
              refine ⟨ns, ?_⟩
              rw [walkEntry_val_bool c k b true
                    (pre.append (RTList.cons k (RT.sattr a nm) tail)), hlk]
              show (if pyEq a.val (Val.bool b) then
                      Except.ok (pre.append (RTList.cons k (RT.sattr a nm) tail),
                        ([] : List (String × String)))
                    else do
                      let (a3, ns3) ← setValue a nm c (Val.bool b)
                      Except.ok ((pre.append (RTList.cons k (RT.sattr a nm)
                        tail)).set k (RT.sattr a3 nm), ns3)) = _
              rw [hpe]
              show (do
                  let (a3, ns3) ← setValue a nm c (Val.bool b)
                  Except.ok ((pre.append (RTList.cons k (RT.sattr a nm)
                    tail)).set k (RT.sattr a3 nm), ns3)) = _
              rw [hsv]
              show Except.ok ((pre.append (RTList.cons k (RT.sattr a nm)
                  tail)).set k (RT.sattr a1 nm), ns) = _
              rw [RTList.set_append_head pre k (RT.sattr a nm) (RT.sattr a1 nm)
                    tail hl]
              have hp : postE c (RT.val (Val.bool b)) (RT.sattr a nm) =
                  RT.sattr (writeA c a (Val.bool b)) nm := by
                show (if pyEq a.val (Val.bool b) then RT.sattr a nm
                      else RT.sattr (writeA c a (Val.bool b)) nm) = _
                rw [hpe]
                exact if_neg Bool.false_ne_true
              rw [hp, ← writeA_of_ok c a nm (Val.bool b) a1 ns hsv]
      | int n0 =>
          cases hpe : pyEq a.val (Val.int n0) with
          | true =>
              refine ⟨[], ?_⟩
              rw [walkEntry_val_int c k n0 true
                    (pre.append (RTList.cons k (RT.sattr a nm) tail)), hlk]
              show (if pyEq a.val (Val.int n0) then
                      Except.ok (pre.append (RTList.cons k (RT.sattr a nm) tail),
                        ([] : List (String × String)))
                    else do
                      let (a3, ns3) ← setValue a nm c (Val.int n0)
                      Except.ok ((pre.append (RTList.cons k (RT.sattr a nm)
                        tail)).set k (RT.sattr a3 nm), ns3)) = _
              rw [hpe]
              have hp : postE c (RT.val (Val.int n0)) (RT.sattr a nm) =
                  RT.sattr a nm := by
                show (if pyEq a.val (Val.int n0) then RT.sattr a nm
                      else RT.sattr (writeA c a (Val.int n0)) nm) = _
                rw [hpe]
                rfl
              rw [hp]
              rfl
          | false =>
              refine ⟨ns, ?_⟩
              rw [walkEntry_val_int c k n0 true
                    (pre.append (RTList.cons k (RT.sattr a nm) tail)), hlk]
              show (if pyEq a.val (Val.int n0) then
                      Except.ok (pre.append (RTList.cons k (RT.sattr a nm) tail),
                        ([] : List (String × String)))
                    else do
                      let (a3, ns3) ← setValue a nm c (Val.int n0)
                      Except.ok ((pre.append (RTList.cons k (RT.sattr a nm)
                        tail)).set k (RT.sattr a3 nm), ns3)) = _
              rw [hpe]
              show (do
                  let (a3, ns3) ← setValue a nm c (Val.int n0)
                  Except.ok ((pre.append (RTList.cons k (RT.sattr a nm)
                    tail)).set k (RT.sattr a3 nm), ns3)) = _
              rw [hsv]
              show Except.ok ((pre.append (RTList.cons k (RT.sattr a nm)
                  tail)).set k (RT.sattr a1 nm), ns) = _
              rw [RTList.set_append_head pre k (RT.sattr a nm) (RT.sattr a1 nm)
                    tail hl]
              have hp : postE c (RT.val (Val.int n0)) (RT.sattr a nm) =
                  RT.sattr (writeA c a (Val.int n0)) nm := by
                show (if pyEq a.val (Val.int n0) then RT.sattr a nm
                      else RT.sattr (writeA c a (Val.int n0)) nm) = _
                rw [hpe]
                exact if_neg Bool.false_ne_true
              rw [hp, ← writeA_of_ok c a nm (Val.int n0) a1 ns hsv]
      | list xs =>
          cases hpe : pyEq a.val (Val.list xs) with
          | true =>
              refine ⟨[], ?_⟩
              rw [walkEntry_val_list c k xs true
                    (pre.append (RTList.cons k (RT.sattr a nm) tail)), hlk]
              show (if pyEq a.val (Val.list xs) then
                      Except.ok (pre.append (RTList.cons k (RT.sattr a nm) tail),
                        ([] : List (String × String)))
                    else do
                      let (a3, ns3) ← setValue a nm c (Val.list xs)
                      Except.ok ((pre.append (RTList.cons k (RT.sattr a nm)
                        tail)).set k (RT.sattr a3 nm), ns3)) = _
              rw [hpe]
              have hp : postE c (RT.val (Val.list xs)) (RT.sattr a nm) =
                  RT.sattr a nm := by
                show (if pyEq a.val (Val.list xs) then RT.sattr a nm
                      else RT.sattr (writeA c a (Val.list xs)) nm) = _
                rw [hpe]
                rfl
              rw [hp]
              rfl
          | false =>
              refine ⟨ns, ?_⟩
              rw [walkEntry_val_list c k xs true
                    (pre.append (RTList.cons k (RT.sattr a nm) tail)), hlk]
              show (if pyEq a.val (Val.list xs) then
                      Except.ok (pre.append (RTList.cons k (RT.sattr a nm) tail),
                        ([] : List (String × String)))
                    else do
                      let (a3, ns3) ← setValue a nm c (Val.list xs)
                      Except.ok ((pre.append (RTList.cons k (RT.sattr a nm)
                        tail)).set k (RT.sattr a3 nm), ns3)) = _
              rw [hpe]
              show (do
                  let (a3, ns3) ← setValue a nm c (Val.list xs)
                  Except.ok ((pre.append (RTList.cons k (RT.sattr a nm)
                    tail)).set k (RT.sattr a3 nm), ns3)) = _
              rw [hsv]
              show Except.ok ((pre.append (RTList.cons k (RT.sattr a nm)
                  tail)).set k (RT.sattr a1 nm), ns) = _
              rw [RTList.set_append_head pre k (RT.sattr a nm) (RT.sattr a1 nm)
                    tail hl]
              have hp : postE c (RT.val (Val.list xs)) (RT.sattr a nm) =
                  RT.sattr (writeA c a (Val.list xs)) nm := by
                show (if pyEq a.val (Val.list xs) then RT.sattr a nm
                      else RT.sattr (writeA c a (Val.list xs)) nm) = _
                rw [hpe]
                exact if_neg Bool.false_ne_true
              rw [hp, ← writeA_of_ok c a nm (Val.list xs) a1 ns hsv]
      | setDict ks =>
          cases hpe : pyEq a.val (Val.setDict ks) with
          | true =>
              refine ⟨[], ?_⟩
              rw [walkEntry_val_setDict c k ks true
                    (pre.append (RTList.cons k (RT.sattr a nm) tail)), hlk]
              show (if pyEq a.val (Val.setDict ks) then
                      Except.ok (pre.append (RTList.cons k (RT.sattr a nm) tail),
                        ([] : List (String × String)))
                    else do
                      let (a3, ns3) ← setValue a nm c (Val.setDict ks)
                      Except.ok ((pre.append (RTList.cons k (RT.sattr a nm)
                        tail)).set k (RT.sattr a3 nm), ns3)) = _
              rw [hpe]
              have hp : postE c (RT.val (Val.setDict ks)) (RT.sattr a nm) =
                  RT.sattr a nm := by
                show (if pyEq a.val (Val.setDict ks) then RT.sattr a nm
                      else RT.sattr (writeA c a (Val.setDict ks)) nm) = _
                rw [hpe]
                rfl
              rw [hp]
              rfl
          | false =>
              refine ⟨ns, ?_⟩
              rw [walkEntry_val_setDict c k ks true
                    (pre.append (RTList.cons k (RT.sattr a nm) tail)), hlk]
              show (if pyEq a.val (Val.setDict ks) then
                      Except.ok (pre.append (RTList.cons k (RT.sattr a nm) tail),
                        ([] : List (String × String)))
                    else do
                      let (a3, ns3) ← setValue a nm c (Val.setDict ks)
                      Except.ok ((pre.append (RTList.cons k (RT.sattr a nm)
                        tail)).set k (RT.sattr a3 nm), ns3)) = _
              rw [hpe]
              show (do
                  let (a3, ns3) ← setValue a nm c (Val.setDict ks)
                  Except.ok ((pre.append (RTList.cons k (RT.sattr a nm)
                    tail)).set k (RT.sattr a3 nm), ns3)) = _
              rw [hsv]
              show Except.ok ((pre.append (RTList.cons k (RT.sattr a nm)
                  tail)).set k (RT.sattr a1 nm), ns) = _
              rw [RTList.set_append_head pre k (RT.sattr a nm) (RT.sattr a1 nm)
                    tail hl]
              have hp : postE c (RT.val (Val.setDict ks)) (RT.sattr a nm) =
                  RT.sattr (writeA c a (Val.setDict ks)) nm := by
                show (if pyEq a.val (Val.setDict ks) then RT.sattr a nm
                      else RT.sattr (writeA c a (Val.setDict ks)) nm) = _
                rw [hpe]
                exact if_neg Bool.false_ne_true
              rw [hp, ← writeA_of_ok c a nm (Val.setDict ks) a1 ns hsv]
  | _, _, ConfE.nest DS PS h1 h2 h3 h4 hC, pre, tail, hl => by
      obtain ⟨ns, hrec⟩ := conf_walk c DS PS hC RTList.nil (fun _ _ => rfl)
      replace hrec : walkList c DS true PS =
          Except.ok (postL c DS PS, ns) := hrec
      refine ⟨ns, ?_⟩
      have hlk := RTList.lookup_append_head pre k (RT.profDict PS) tail hl
      show (match (pre.append (RTList.cons k (RT.profDict PS) tail)).lookup k with
            | Option.some (RT.sattr _ _) =>
                Except.error (Err.unmodeled "non-value compared against attribute")
            | _ =>
                if DS.hasKey "value" || DS.hasKey "values" then
                  Except.error (Err.unmodeled "plain dict carrying a value key")
                else if DS.getIsNone "metadata" && DS.getIsNone "signature" then
                  match (if ((pre.append (RTList.cons k (RT.profDict PS)
                             tail)).lookup k).isNone
                         then (pre.append (RTList.cons k (RT.profDict PS)
                             tail)).set k (RT.profDict RTList.nil)
                         else pre.append (RTList.cons k (RT.profDict PS)
                             tail)).lookup k with
                  | Option.some (RT.profDict fs) => do
                      let (fs1, ns2) ← walkList c DS true fs
                      Except.ok ((if ((pre.append (RTList.cons k (RT.profDict PS)
                                     tail)).lookup k).isNone
                                  then (pre.append (RTList.cons k (RT.profDict PS)
                                     tail)).set k (RT.profDict RTList.nil)
                                  else pre.append (RTList.cons k (RT.profDict PS)
                                     tail)).set k (RT.profDict fs1), ns2)
                  | Option.some (RT.pdict fs) => do
                      let (fs1, ns2) ← walkList c DS false fs
                      Except.ok ((if ((pre.append (RTList.cons k (RT.profDict PS)
                                     tail)).lookup k).isNone
                                  then (pre.append (RTList.cons k (RT.profDict PS)
                                     tail)).set k (RT.profDict RTList.nil)
                                  else pre.append (RTList.cons k (RT.profDict PS)
                                     tail)).set k (RT.pdict fs1), ns2)
                  | _ => Except.error (Err.unmodeled "recursing into a non-dict output")
                else Except.error (Err.schemaViolation k)) = _
      rw [hlk, h1, h2, h3, h4]
      show (match (pre.append (RTList.cons k (RT.profDict PS) tail)).lookup k with
            | Option.some (RT.profDict fs) => do
                let (fs1, ns2) ← walkList c DS true fs
                Except.ok ((pre.append (RTList.cons k (RT.profDict PS)
                    tail)).set k (RT.profDict fs1), ns2)
            | Option.some (RT.pdict fs) => do
                let (fs1, ns2) ← walkList c DS false fs
                Except.ok ((pre.append (RTList.cons k (RT.profDict PS)
                    tail)).set k (RT.pdict fs1), ns2)
            | _ => Except.error (Err.unmodeled "recursing into a non-dict output")) = _
      rw [hlk]
      show (do
          let (fs1, ns2) ← walkList c DS true PS
          Except.ok ((pre.append (RTList.cons k (RT.profDict PS) tail)).set k
              (RT.profDict fs1), ns2)) = _
      rw [hrec]
      show Except.ok ((pre.append (RTList.cons k (RT.profDict PS) tail)).set k
          (RT.profDict (postL c DS PS)), ns) = _
      rw [RTList.set_append_head pre k (RT.profDict PS)
            (RT.profDict (postL c DS PS)) tail hl]
      rfl
termination_by dv => sizeOf dv

/-- `Profile.sign`'s walk over an aligned flat view and raw tree
rewrites every raw slot to `postE` and succeeds, leaving any disjoint
prefix of the output untouched. -/
theorem conf_walk (c : Ctx) : ∀ (D P : RTList), Conf c D P → ∀ (pre : RTList),
    (∀ k2, D.hasKey k2 = true → pre.lookup k2 = Option.none) →
    ∃ ns, walkList c D true (pre.append P) =
        Except.ok (pre.append (postL c D P), ns)
  | _, _, Conf.nil, pre, _ => ⟨[], rfl⟩
  | _, _, Conf.cons k dv pv D P hfresh hE hC, pre, hd => by
      have hl : pre.lookup k = Option.none :=
        hd k (RTList.hasKey_cons_self k dv D)
      obtain ⟨ns1, he⟩ := conf_walk_entry c k dv pv hE pre P hl
      have hd' : ∀ k2, D.hasKey k2 = true →
          (pre.append (RTList.cons k (postE c dv pv) RTList.nil)).lookup k2 =
            Option.none := by
        intro k2 h2
        rw [RTList.lookup_append]
        have ho : pre.lookup k2 = Option.none := by
          apply hd k2
          rw [RTList.hasKey_cons, h2]
          cases k == k2 <;> rfl
        rw [ho]
        show (RTList.cons k (postE c dv pv) RTList.nil).lookup k2 = _
        rw [RTList.lookup_cons]
        have hkk2 : (k == k2) = false := by
          cases hq : k == k2 with
          | false => rfl
          | true =>
              have hkk : k = k2 := eq_of_beq hq
              subst hkk
              rw [h2] at hfresh
              exact Bool.noConfusion hfresh
        rw [hkk2, if_neg Bool.false_ne_true, RTList.lookup_nil]
      obtain ⟨ns2, hrest⟩ := conf_walk c D P hC
          (pre.append (RTList.cons k (postE c dv pv) RTList.nil)) hd'
      have hstep : (pre.append (RTList.cons k (postE c dv pv)
            RTList.nil)).append P =
          pre.append (RTList.cons k (postE c dv pv) P) :=
        RTList.append_assoc pre (RTList.cons k (postE c dv pv) RTList.nil) P
      refine ⟨ns1 ++ ns2, ?_⟩
      show (do
          let (out1, ns1') ← walkEntry c k dv true
            (pre.append (RTList.cons k pv P))
          let (out2, ns2') ← walkList c D true out1
          Except.ok (out2, ns1' ++ ns2')) = _
      rw [he]
      show (do
          let (out2, ns2') ← walkList c D true
            (pre.append (RTList.cons k (postE c dv pv) P))
          Except.ok (out2, ns1 ++ ns2')) = _
      rw [← hstep, hrest]
      show Except.ok ((pre.append (RTList.cons k (postE c dv pv)
          RTList.nil)).append (postL c D P), ns1 ++ ns2) = _
      rw [RTList.append_assoc]
      rfl
termination_by D => sizeOf D
end

mutual
/-- Flattening a re-signed raw slot yields the claim-level description
`rtNormE`. -/
theorem flat_postE (c : Ctx) : ∀ (dv pv : RT), ConfE c dv pv →
    flatOfE (postE c dv pv) = rtNormE dv pv
  | _, _, ConfE.strPlain s => rfl
  | _, _, ConfE.strAttr s a nm a1 ns hsv => by
      show RT.val (writeA c a (Val.str s)).val =
        RT.val (if isNoop a (pyNorm (Val.str s)) then a.val
                else pyNorm (Val.str s))
      have h2 := val_of_ok a nm c (Val.str s) a1 ns hsv
      rw [writeA_of_ok c a nm (Val.str s) a1 ns hsv] at h2
      rw [h2]
  | _, _, ConfE.leaf u a nm a1 ns hstr hsv => by
      have h2 := val_of_ok a nm c u a1 ns hsv
      rw [writeA_of_ok c a nm u a1 ns hsv] at h2
      cases u with
      | str s => exact Bool.noConfusion hstr
      | none =>
          have hp : postE c (RT.val Val.none) (RT.sattr a nm) =
              (if pyEq a.val Val.none then RT.sattr a nm
               else RT.sattr (writeA c a Val.none) nm) := rfl
          have hr : rtNormE (RT.val Val.none) (RT.sattr a nm) =
              RT.val (if pyEq a.val Val.none then a.val
                      else if isNoop a (pyNorm Val.none) then a.val
                      else pyNorm Val.none) := rfl
          rw [hp, hr]
          cases hpe : pyEq a.val Val.none with
          | true => rfl
          | false =>
              show RT.val (writeA c a Val.none).val = _
              rw [h2]
              rfl
      | bool b =>
          have hp : postE c (RT.val (Val.bool b)) (RT.sattr a nm) =
              (if pyEq a.val (Val.bool b) then RT.sattr a nm
               else RT.sattr (writeA c a (Val.bool b)) nm) := rfl
          have hr : rtNormE (RT.val (Val.bool b)) (RT.sattr a nm) =
              RT.val (if pyEq a.val (Val.bool b) then a.val
                      else if isNoop a (pyNorm (Val.bool b)) then a.val
                      else pyNorm (Val.bool b)) := rfl
          rw [hp, hr]
          cases hpe : pyEq a.val (Val.bool b) with
          | true => rfl
          | false =>
              show RT.val (writeA c a (Val.bool b)).val = _
              rw [h2]
              rfl
      | int n0 =>
          have hp : postE c (RT.val (Val.int n0)) (RT.sattr a nm) =
              (if pyEq a.val (Val.int n0) then RT.sattr a nm
               else RT.sattr (writeA c a (Val.int n0)) nm) := rfl
          have hr : rtNormE (RT.val (Val.int n0)) (RT.sattr a nm) =
              RT.val (if pyEq a.val (Val.int n0) then a.val
                      else if isNoop a (pyNorm (Val.int n0)) then a.val
                      else pyNorm (Val.int n0)) := rfl
          rw [hp, hr]
          cases hpe : pyEq a.val (Val.int n0) with
          | true => rfl
          | false =>
              show RT.val (writeA c a (Val.int n0)).val = _
              rw [h2]
              rfl
      | list xs =>
          have hp : postE c (RT.val (Val.list xs)) (RT.sattr a nm) =
              (if pyEq a.val (Val.list xs) then RT.sattr a nm
               else RT.sattr (writeA c a (Val.list xs)) nm) := rfl
          have hr : rtNormE (RT.val (Val.list xs)) (RT.sattr a nm) =
              RT.val (if pyEq a.val (Val.list xs) then a.val
                      else if isNoop a (pyNorm (Val.list xs)) then a.val
                      else pyNorm (Val.list xs)) := rfl
          rw [hp, hr]
          cases hpe : pyEq a.val (Val.list xs) with
          | true => rfl
          | false =>
              show RT.val (writeA c a (Val.list xs)).val = _
              rw [h2]
              rfl
      | setDict ks =>
          have hp : postE c (RT.val (Val.setDict ks)) (RT.sattr a nm) =
              (if pyEq a.val (Val.setDict ks) then RT.sattr a nm
               else RT.sattr (writeA c a (Val.setDict ks)) nm) := rfl
          have hr : rtNormE (RT.val (Val.setDict ks)) (RT.sattr a nm) =
              RT.val (if pyEq a.val (Val.setDict ks) then a.val
                      else if isNoop a (pyNorm (Val.setDict ks)) then a.val
                      else pyNorm (Val.setDict ks)) := rfl
          rw [hp, hr]
          cases hpe : pyEq a.val (Val.setDict ks) with
          | true => rfl
          | false =>
              show RT.val (writeA c a (Val.setDict ks)).val = _
              rw [h2]
              rfl
  | _, _, ConfE.nest DS PS h1 h2 h3 h4 hC => by
      show RT.pdict (flatOf (postL c DS PS)) = RT.pdict (rtNorm DS PS)
      rw [flat_postL c DS PS hC]
termination_by dv => sizeOf dv

theorem flat_postL (c : Ctx) : ∀ (D P : RTList), Conf c D P →
    flatOf (postL c D P) = rtNorm D P
  | _, _, Conf.nil => rfl
  | _, _, Conf.cons k dv pv D P hfresh hE hC => by
      show RTList.cons k (flatOfE (postE c dv pv)) (flatOf (postL c D P)) =
        RTList.cons k (rtNormE dv pv) (rtNorm D P)
      rw [flat_postE c dv pv hE, flat_postL c D P hC]
termination_by D => sizeOf D
end

mutual
/-- `postE` preserves the raw-tree shape of a slot. -/
theorem postE_isRawE (c : Ctx) : ∀ (dv pv : RT), ConfE c dv pv →
    isRawE pv = true → isRawE (postE c dv pv) = true
  | _, _, ConfE.strPlain s, _ => rfl
  | _, _, ConfE.strAttr s a nm a1 ns hsv, _ => rfl
  | _, _, ConfE.leaf u a nm a1 ns hstr hsv, _ => by
      cases u with
      | str s => exact Bool.noConfusion hstr
      | none =>
          show isRawE (if pyEq a.val Val.none then RT.sattr a nm
                       else RT.sattr (writeA c a Val.none) nm) = true
          cases hpe : pyEq a.val Val.none <;> rfl
      | bool b =>
          show isRawE (if pyEq a.val (Val.bool b) then RT.sattr a nm
                       else RT.sattr (writeA c a (Val.bool b)) nm) = true
          cases hpe : pyEq a.val (Val.bool b) <;> rfl
      | int n0 =>
          show isRawE (if pyEq a.val (Val.int n0) then RT.sattr a nm
                       else RT.sattr (writeA c a (Val.int n0)) nm) = true
          cases hpe : pyEq a.val (Val.int n0) <;> rfl
      | list xs =>
          show isRawE (if pyEq a.val (Val.list xs) then RT.sattr a nm
                       else RT.sattr (writeA c a (Val.list xs)) nm) = true
          cases hpe : pyEq a.val (Val.list xs) <;> rfl
      | setDict ks =>
          show isRawE (if pyEq a.val (Val.setDict ks) then RT.sattr a nm
                       else RT.sattr (writeA c a (Val.setDict ks)) nm) = true
          cases hpe : pyEq a.val (Val.setDict ks) <;> rfl
  | _, _, ConfE.nest DS PS h1 h2 h3 h4 hC, hraw => by
      show isRaw (postL c DS PS) = true
      exact postL_isRaw c DS PS hC hraw
termination_by dv => sizeOf dv

/-- `postL` preserves raw-tree well-formedness. -/
theorem postL_isRaw (c : Ctx) : ∀ (D P : RTList), Conf c D P →
    isRaw P = true → isRaw (postL c D P) = true
  | _, _, Conf.nil, _ => rfl
  | _, _, Conf.cons k dv pv D P hfresh hE hC, hraw => by
      rw [show isRaw (RTList.cons k pv P) =
            ((!P.hasKey k && isRawE pv) && isRaw P) from rfl,
          Bool.and_eq_true, Bool.and_eq_true] at hraw
      obtain ⟨⟨hk, hv⟩, hrest⟩ := hraw
      show ((!(postL c D P).hasKey k && isRawE (postE c dv pv)) &&
            isRaw (postL c D P)) = true
      rw [postL_hasKey c D P hC, bnotTrue hk, postE_isRawE c dv pv hE hv,
          postL_isRaw c D P hC hrest]
      rfl
termination_by D => sizeOf D

/-- `postL` keeps exactly the keys of the raw tree. -/
theorem postL_hasKey (c : Ctx) : ∀ (D P : RTList), Conf c D P →
    ∀ k2, (postL c D P).hasKey k2 = P.hasKey k2
  | _, _, Conf.nil, _ => rfl
  | _, _, Conf.cons k dv pv D P hfresh hE hC, k2 => by
      show (RTList.cons k (postE c dv pv) (postL c D P)).hasKey k2 =
        (RTList.cons k pv P).hasKey k2
      rw [RTList.hasKey_cons, RTList.hasKey_cons, postL_hasKey c D P hC k2]
termination_by D => sizeOf D
end

/-- C1 (amended): on a flat view aligned with its raw tree (`Conf`),
the flat-to-raw walk of `Profile.sign` succeeds, and projecting the
re-signed raw tree back to a flat view yields `rtNorm`: plain strings
and nested containers round-trip unchanged, and each attribute leaf
carries the normalized input `pyNorm` (numeric to string form,
non-empty list to a de-duplicated, sorted set-dict) except when the
write is skipped — by the `!=` guard of line 133 (Python equality, so
e.g. `True` over stored `1` survives) or by the no-op test of lines
295-298 (an empty/absent value written over an empty/absent value) —
in which case the previously stored value survives; in particular an
empty list does not surface as the empty set. -/
theorem flat_raw_roundtrip (c : Ctx) (D P : RTList) (h : Conf c D P)
    (hP : isRaw P = true) :
    ∃ P1 ns, walkList c D true P = Except.ok (P1, ns) ∧
      walkList c P1 false RTList.nil = Except.ok (rtNorm D P, []) := by
  obtain ⟨ns, hw⟩ := conf_walk c D P h RTList.nil (fun _ _ => rfl)
  refine ⟨postL c D P, ns, hw, ?_⟩
  have hr := raw_walk_list c (postL c D P) RTList.nil
      (postL_isRaw c D P h hP) (fun _ _ => rfl)
  rw [flat_postL c D P h] at hr
  exact hr

/-- The normalization the claim asserts for the round trip: numbers to
their string form, every list (empty included) to the set-dict of its
de-duplicated sorted members, all other values unchanged. -/
def claimNormV : Val → Val
  | Val.int n => Val.str (toString n)
  | Val.list xs => Val.setDict (dedupL (sortStr xs))
  | w => w

/-- A flat view writing `[]` onto an attribute whose stored value is
`None`. -/
def D0cex : RTList := RTList.cons "k" (RT.val (Val.list [])) RTList.nil

def P0cex : RTList :=
  RTList.cons "k" (RT.sattr (attrSet Val.none) "k") RTList.nil

theorem flat_raw_roundtrip_cex :
    (walkList cStaff D0cex true P0cex).map
      (fun r : RTList × List (String × String) => flatOf r.1) =
      Except.ok (RTList.cons "k" (RT.val Val.none) RTList.nil) ∧
    claimNormV (Val.list []) = Val.setDict [] ∧
    Val.none ≠ Val.setDict [] :=
  ⟨by rfl, by rfl, fun h => Val.noConfusion h⟩

/-- A flat view writing the list `["b", "a", "b"]` onto an attribute
whose stored value is `None`. -/
def D1w : RTList :=
  RTList.cons "k" (RT.val (Val.list ["b", "a", "b"])) RTList.nil

def P1w : RTList :=
  RTList.cons "k" (RT.sattr (attrSet Val.none) "k") RTList.nil

theorem flat_raw_roundtrip_witness :
    isRaw P1w = true ∧
    (∃ P1 ns, walkList cStaff D1w true P1w = Except.ok (P1, ns) ∧
      walkList cStaff P1 false RTList.nil =
        Except.ok (rtNorm D1w P1w, [])) ∧
    rtNorm D1w P1w =
      RTList.cons "k" (RT.val (Val.setDict ["a", "b"])) RTList.nil :=
  ⟨rfl,
   flat_raw_roundtrip cStaff D1w P1w
     (Conf.cons "k" (RT.val (Val.list ["b", "a", "b"]))
       (RT.sattr (attrSet Val.none) "k") RTList.nil RTList.nil rfl
       (ConfE.leaf (Val.list ["b", "a", "b"]) (attrSet Val.none) "k" _ _
         rfl rfl)
       Conf.nil)
     rfl,
   by rfl⟩
